import Mathlib

/-!
# Qualcomm BWMON bandwidth monitor (`drivers/soc/qcom/icc-bwmon.c`)

A shallow embedding of the driver's register programming, its fast interrupt
handler `bwmon_intr` and its threaded handler `bwmon_intr_thread`.

Conventions of the embedding:

* C `unsigned int` / `u32` values are naturals reduced `% 2 ^ 32` at every
  operation that can wrap; `unsigned long` is 64 bits wide (the driver is an
  arm64 SoC driver), reduced `% 2 ^ 64`.
* The memory-mapped register block behind `bwmon->base` is a function from
  byte offsets to register contents.  Offsets are integers because
  `BWMON_ZONE_MAX(zone)` is computed from a signed `int zone`.
* Every `readl` and `writel` is logged, in program order, oldest first.
* Calls of `dev_pm_opp_set_opp` are logged the same way.
-/

namespace Bwmon

/-! ## Constants of the register block -/

def HW_TIMER_HZ : Nat := 19200000

def BWMON_GLOBAL_IRQ_STATUS : Int := 0x0
def BWMON_GLOBAL_IRQ_CLEAR : Int := 0x8
def BWMON_GLOBAL_IRQ_ENABLE : Int := 0xc

def BWMON_IRQ_STATUS : Int := 0x100
def BWMON_IRQ_CLEAR : Int := 0x108
def BWMON_IRQ_ENABLE : Int := 0x10c

def BWMON_ENABLE : Int := 0x2a0
def BWMON_CLEAR : Int := 0x2a4
def BWMON_SAMPLE_WINDOW : Int := 0x2a8
def BWMON_THRESHOLD_HIGH : Int := 0x2ac
def BWMON_THRESHOLD_MED : Int := 0x2b0
def BWMON_THRESHOLD_LOW : Int := 0x2b4
def BWMON_ZONE_ACTIONS : Int := 0x2b8
def BWMON_THRESHOLD_COUNT : Int := 0x2bc
def BWMON_ZONE_COUNT : Int := 0x2d8

/-- The macro `BWMON_ZONE_MAX(zone)`, `0x2e0 + 4 * (zone)`, on a signed zone. -/
def BWMON_ZONE_MAX (zone : Int) : Int := 0x2e0 + 4 * zone

/-- Modelled from the spec: the macro `BIT(n)` (include/linux/bits.h) is not
part of the sources at hand; the spec speaks of single bits of a register,
`BIT(n)` is the mask `1 << n`. -/
def BIT (n : Nat) : Nat := 1 <<< n

def BWMON_GLOBAL_IRQ_ENABLE_ENABLE : Nat := BIT 0

def BWMON_IRQ_ENABLE_ZONE1_SHIFT : Nat := 5
def BWMON_IRQ_ENABLE_ZONE3_SHIFT : Nat := 7

def BWMON_ENABLE_ENABLE : Nat := BIT 0

def BWMON_CLEAR_CLEAR : Nat := BIT 0

def BWMON_ZONE_ACTIONS_DEFAULT : Nat := 0x95250901

def BWMON_THRESHOLD_COUNT_ZONE1_SHIFT : Nat := 8
def BWMON_THRESHOLD_COUNT_ZONE2_SHIFT : Nat := 16
def BWMON_THRESHOLD_COUNT_ZONE3_SHIFT : Nat := 24
def BWMON_THRESHOLD_COUNT_ZONE0_DEFAULT : Nat := 0xFF
def BWMON_THRESHOLD_COUNT_ZONE2_DEFAULT : Nat := 0xFF

/-- Modelled from the spec: `MSEC_PER_SEC` (include/linux/time64.h) is not part
of the sources at hand; the spec divides and multiplies by `1000`. -/
def MSEC_PER_SEC : Nat := 1000

/-- Modelled from the spec: `SZ_1M` (include/linux/sizes.h) is not part of the
sources at hand; the spec writes it `1<<20`, that is `1_048_576`. -/
def SZ_1M : Nat := 0x100000

/-! ## Data model -/

/-- The type `struct icc_bwmon_data`: static per-SoC configuration. -/
structure icc_bwmon_data where
  sample_ms : Nat
  default_highbw_mbps : Nat
  default_medbw_mbps : Nat
  default_lowbw_mbps : Nat
  zone1_thres_count : Nat
  zone3_thres_count : Nat
deriving DecidableEq, Repr

/-- The type `struct icc_bwmon`, without the `dev`, `base` and `irq` handles
(the register block behind `base` is the `regs` field of `Machine`). -/
structure icc_bwmon where
  sample_ms : Nat
  count_shift : Nat
  max_bw_mbps : Nat
  min_bw_mbps : Nat
  target_mbps : Nat
  current_mbps : Nat
deriving DecidableEq, Repr

/-- Modelled from the spec: `struct dev_pm_opp` lives in the OPP library
(drivers/opp), which is not part of the sources at hand.  The spec's
operating point is "a monotonic table entry keyed by bandwidth"; `peak` is that
key, in kbps. -/
structure dev_pm_opp where
  peak : Nat
deriving DecidableEq, Repr

/-- Modelled from the spec: the errno `ERANGE` (34), the code behind the spec's
"out of range" answers of the operating-point lookups. -/
def ERANGE : Int := 34

/-- Modelled from the spec: the answer of an operating-point lookup as the
driver holds it in a `struct dev_pm_opp *`; the spec's `entry | OutOfRange`: a
valid entry, or an `ERR_PTR` carrying a negative errno. -/
inductive opp_ptr where
  | ok (opp : dev_pm_opp)
  | err (code : Int)
deriving DecidableEq, Repr

/-- Modelled from the spec: the macro `IS_ERR` (include/linux/err.h) is not part
of the sources at hand; it tells the spec's "out of range" answers (error
pointers) from entries. -/
def IS_ERR : opp_ptr → Bool
  | .ok _ => false
  | .err _ => true

/-- Modelled from the spec: the macro `PTR_ERR` (include/linux/err.h) is not
part of the sources at hand; it is the errno carried by an error pointer (the
driver consults it only after `IS_ERR`). -/
def PTR_ERR : opp_ptr → Int
  | .ok _ => 0
  | .err code => code

/-- Modelled from the spec: the return type `irqreturn_t` of the interrupt
handlers (include/linux/irqreturn.h) is not part of the sources at hand; the
spec's answers are "not handled" (`IRQ_NONE`), handled (`IRQ_HANDLED`) and the
hand-off to the deferred handler (`IRQ_WAKE_THREAD`). -/
inductive irqreturn_t where
  | IRQ_NONE
  | IRQ_HANDLED
  | IRQ_WAKE_THREAD
deriving DecidableEq, Repr

/-- Everything the handlers act on: the monitor instance, the register block,
the operating-point table of the device, and the logs of register accesses and
of operating-point commits. -/
structure Machine where
  bwmon : icc_bwmon
  regs : Int → Nat
  opp_table : List dev_pm_opp
  reads : List Int
  writes : List (Int × Nat)
  set_opp_calls : List opp_ptr

/-! ## Kernel helpers used by the driver -/

/-- Modelled from the spec: the macro `mult_frac(x, numer, denom)`
(include/linux/math.h) is not part of the sources at hand.  The spec gives its
value as `x * numer / denom` with truncating division.  The macro gets there
without forming `x * numer`: it splits `x` into quotient and remainder by
`denom`, and every intermediate has the C type of `x`, here `w` bits wide. -/
def mult_frac (w x numer denom : Nat) : Nat :=
  let quot := x / denom
  let rem := x % denom
  ((quot * numer) % 2 ^ w + ((rem * numer) % 2 ^ w) / denom) % 2 ^ w

/-- Modelled from the spec: the accessor `readl` (the architecture's io.h) is
not part of the sources at hand; the spec's register interface has
`read(offset) -> value`.  Here `readl(bwmon->base + off)`: a 32-bit read,
logged. -/
def readl (m : Machine) (off : Int) : Nat × Machine :=
  (m.regs off % 2 ^ 32, { m with reads := m.reads ++ [off] })

/-- Modelled from the spec: the accessor `writel` (the architecture's io.h) is
not part of the sources at hand; the spec's register interface has
`write(offset, value)`, and a write followed by a read yields the value
written.  Here `writel(val, bwmon->base + off)`: a 32-bit write, logged. -/
def writel (val : Nat) (off : Int) (m : Machine) : Machine :=
  { m with
    regs := fun o => if o = off then val % 2 ^ 32 else m.regs o
    writes := m.writes ++ [(off, val % 2 ^ 32)] }

/-! ## Register programming -/

/-- The function `bwmon_clear`. -/
def bwmon_clear (m : Machine) : Machine :=
  let m := writel 0xa0 BWMON_IRQ_CLEAR m
  let m := writel (BIT 0) BWMON_GLOBAL_IRQ_CLEAR m
  writel BWMON_CLEAR_CLEAR BWMON_CLEAR m

/-- The function `bwmon_disable`. -/
def bwmon_disable (m : Machine) : Machine :=
  let m := writel 0x0 BWMON_GLOBAL_IRQ_ENABLE m
  let m := writel 0x0 BWMON_IRQ_ENABLE m
  writel 0x0 BWMON_ENABLE m

/-- The function `bwmon_enable`. -/
def bwmon_enable (m : Machine) (irq_enable : Nat) : Machine :=
  let m := writel BWMON_GLOBAL_IRQ_ENABLE_ENABLE BWMON_GLOBAL_IRQ_ENABLE m
  let m := writel irq_enable BWMON_IRQ_ENABLE m
  writel BWMON_ENABLE_ENABLE BWMON_ENABLE m

/-- The function `bwmon_set_threshold`: `mult_frac` on `unsigned int`
operands, then a write of the result to the register at offset `reg`. -/
def bwmon_set_threshold (m : Machine) (reg : Int) (mbps : Nat) : Machine :=
  let thres := mult_frac 32 (mbps % 2 ^ 32) m.bwmon.sample_ms MSEC_PER_SEC
  writel thres reg m

/-- The function `bwmon_start`. -/
def bwmon_start (m : Machine) (data : icc_bwmon_data) : Machine :=
  let m := bwmon_clear m
  let window := mult_frac 32 (m.bwmon.sample_ms % 2 ^ 32) HW_TIMER_HZ MSEC_PER_SEC
  let m := writel window BWMON_SAMPLE_WINDOW m
  let m := bwmon_set_threshold m BWMON_THRESHOLD_HIGH data.default_highbw_mbps
  let m := bwmon_set_threshold m BWMON_THRESHOLD_MED data.default_medbw_mbps
  let m := bwmon_set_threshold m BWMON_THRESHOLD_LOW data.default_lowbw_mbps
  let thres_count :=
    ((data.zone3_thres_count % 2 ^ 8) <<< BWMON_THRESHOLD_COUNT_ZONE3_SHIFT |||
      BWMON_THRESHOLD_COUNT_ZONE2_DEFAULT <<< BWMON_THRESHOLD_COUNT_ZONE2_SHIFT |||
      (data.zone1_thres_count % 2 ^ 8) <<< BWMON_THRESHOLD_COUNT_ZONE1_SHIFT |||
      BWMON_THRESHOLD_COUNT_ZONE0_DEFAULT) % 2 ^ 32
  let m := writel thres_count BWMON_THRESHOLD_COUNT m
  let m := writel BWMON_ZONE_ACTIONS_DEFAULT BWMON_ZONE_ACTIONS m
  let irq_enable := 1 <<< BWMON_IRQ_ENABLE_ZONE1_SHIFT ||| 1 <<< BWMON_IRQ_ENABLE_ZONE3_SHIFT
  let m := bwmon_clear m
  bwmon_enable m irq_enable

/-! ## Fast interrupt handler -/

/-- Scan of the bits `bits - 1, ..., 0` of `x` from the top: the 1-based
position of the first set bit met, `0` when none is set. -/
def fls_from : Nat → Nat → Nat
  | 0, _ => 0
  | bits + 1, x => if x.testBit bits then bits + 1 else fls_from bits x

/-- Modelled from the spec: `get_bitmask_order` (include/linux/bitops.h, the
kernel's `fls` on an `unsigned int`) is not part of the sources at hand.  The
spec calls it `highest_set_bit`: the 1-based position of the highest set bit,
so that a 4-bit field maps to zones 0..3 after the `- 1`; it is `0` on `0`. -/
def get_bitmask_order (count : Nat) : Nat := fls_from 32 (count % 2 ^ 32)

/-- The zone selected by `bwmon_intr` from the value of the IRQ status
register: `get_bitmask_order(status >> 4) - 1`, a signed `int`. -/
def bwmon_intr_zone (status : Nat) : Int :=
  (get_bitmask_order (status >>> 4) : Int) - 1

/-- The function `bwmon_intr`.  The shift of the 32-bit register value by
`count_shift` is a 32-bit shift (C leaves it undefined from 32 bits on, where
this definition yields the truncated product); `max` is an `unsigned long`,
so `mult_frac` and the division by `SZ_1M` work on 64 bits, and the result is
narrowed to the `unsigned int` field `target_mbps`.  C leaves the division
undefined when `sample_ms` is `0`. -/
def bwmon_intr (m : Machine) : irqreturn_t × Machine :=
  let status := (readl m BWMON_IRQ_STATUS).1
  let m := (readl m BWMON_IRQ_STATUS).2
  if status = 0 then
    (irqreturn_t.IRQ_NONE, m)
  else
    let m := bwmon_disable m
    let zone := bwmon_intr_zone status
    let raw := (readl m (BWMON_ZONE_MAX zone)).1
    let m := (readl m (BWMON_ZONE_MAX zone)).2
    let max := (raw <<< m.bwmon.count_shift) % 2 ^ 32
    let target := (mult_frac 64 max MSEC_PER_SEC m.bwmon.sample_ms / SZ_1M) % 2 ^ 32
    (irqreturn_t.IRQ_WAKE_THREAD, { m with bwmon := { m.bwmon with target_mbps := target } })

/-! ## Operating-point table -/

/-- Modelled from the spec: `dev_pm_opp_find_bw_ceil` belongs to the OPP
library, which is not part of the sources at hand.  The spec's contract is
`find_ceiling(bw) -> entry | OutOfRangeAbove` over a table sorted by
bandwidth: the first entry at or above `bw`.  The second component is the
caller's `*bw` after the call: refreshed to the found entry's bandwidth, left
alone when nothing is found. -/
def dev_pm_opp_find_bw_ceil (table : List dev_pm_opp) (bw : Nat) : opp_ptr × Nat :=
  match table.find? (fun e => decide (bw ≤ e.peak)) with
  | some e => (opp_ptr.ok e, e.peak)
  | none => (opp_ptr.err (-ERANGE), bw)

/-- Walk of the table in order, remembering the last entry at or below `bw`
and stopping at the first entry above it. -/
def find_bw_floor_from : List dev_pm_opp → Nat → Option dev_pm_opp → Option dev_pm_opp
  | [], _, found => found
  | e :: rest, bw, found =>
    if bw < e.peak then found else find_bw_floor_from rest bw (some e)

/-- Modelled from the spec: `dev_pm_opp_find_bw_floor` belongs to the OPP
library, which is not part of the sources at hand.  The spec's contract is
`find_floor(bw) -> entry | OutOfRangeBelow` over a table sorted by bandwidth:
the last entry at or below `bw`.  The second component is the caller's `*bw`
after the call, as for the ceiling lookup. -/
def dev_pm_opp_find_bw_floor (table : List dev_pm_opp) (bw : Nat) : opp_ptr × Nat :=
  match find_bw_floor_from table bw none with
  | some e => (opp_ptr.ok e, e.peak)
  | none => (opp_ptr.err (-ERANGE), bw)

/-! ## Threaded interrupt handler -/

/-- The first step of `bwmon_intr_thread`: the ceiling lookup and, when it
answers `-ERANGE`, the floor lookup in its place.  The second component is
`bw_kbps` after the step. -/
def find_target_opp (table : List dev_pm_opp) (bw_kbps : Nat) : opp_ptr × Nat :=
  let ceil := dev_pm_opp_find_bw_ceil table bw_kbps
  if IS_ERR ceil.1 && PTR_ERR ceil.1 == -ERANGE then
    dev_pm_opp_find_bw_floor table ceil.2
  else ceil

/-- The local variables of `bwmon_intr_thread` once the interrupt mask has been
chosen, together with the recomputed `bwmon->target_mbps`.  The field
`ceil_opp` is what the first lookup (the ceiling one) returned, before the
fallback to the floor lookup. -/
structure thread_locals where
  ceil_opp : opp_ptr
  target_opp : opp_ptr
  opp : opp_ptr
  target_mbps : Nat
  up_mbps : Nat
  down_mbps : Nat
  irq_enable : Nat
deriving DecidableEq, Repr

/-- The first part of `bwmon_intr_thread`, up to the choice of `irq_enable`.
The product `target_mbps * 1000` is an `unsigned int` product widened to the
`unsigned long` `bw_kbps`; `bw_kbps--` is a 64-bit decrement. -/
def bwmon_intr_thread_locals (m : Machine) : thread_locals :=
  let bw_kbps := (m.bwmon.target_mbps * 1000) % 2 ^ 32
  let ceil := dev_pm_opp_find_bw_ceil m.opp_table bw_kbps
  let found := find_target_opp m.opp_table bw_kbps
  let target_opp := found.1
  let bw_kbps := found.2
  let target_mbps := (bw_kbps / 1000) % 2 ^ 32
  let bw_kbps := (bw_kbps + (2 ^ 64 - 1)) % 2 ^ 64
  let floor := dev_pm_opp_find_bw_floor m.opp_table bw_kbps
  let opp := floor.1
  let bw_kbps := floor.2
  let down_mbps :=
    if IS_ERR opp && PTR_ERR opp == -ERANGE then target_mbps
    else (bw_kbps / 1000) % 2 ^ 32
  let up_mbps := (target_mbps + 1) % 2 ^ 32
  let irq_enable :=
    if target_mbps ≥ m.bwmon.max_bw_mbps then
      1 <<< BWMON_IRQ_ENABLE_ZONE1_SHIFT
    else if target_mbps ≤ m.bwmon.min_bw_mbps then
      1 <<< BWMON_IRQ_ENABLE_ZONE3_SHIFT
    else
      1 <<< BWMON_IRQ_ENABLE_ZONE1_SHIFT ||| 1 <<< BWMON_IRQ_ENABLE_ZONE3_SHIFT
  { ceil_opp := ceil.1, target_opp := target_opp, opp := opp, target_mbps := target_mbps,
    up_mbps := up_mbps, down_mbps := down_mbps, irq_enable := irq_enable }

/-- The function `bwmon_intr_thread`.  The releases of the table-entry handles
(`dev_pm_opp_put`) touch nothing that is modelled here. -/
def bwmon_intr_thread (m : Machine) : irqreturn_t × Machine :=
  let l := bwmon_intr_thread_locals m
  let m := { m with bwmon := { m.bwmon with target_mbps := l.target_mbps } }
  let m := bwmon_set_threshold m BWMON_THRESHOLD_HIGH l.up_mbps
  let m := bwmon_set_threshold m BWMON_THRESHOLD_MED l.down_mbps
  let m := bwmon_clear m
  let m := bwmon_enable m l.irq_enable
  if m.bwmon.target_mbps = m.bwmon.current_mbps then
    (irqreturn_t.IRQ_HANDLED, m)
  else
    (irqreturn_t.IRQ_HANDLED,
      { m with
        set_opp_calls := m.set_opp_calls ++ [l.target_opp]
        bwmon := { m.bwmon with current_mbps := m.bwmon.target_mbps } })

/-- A machine at rest: the given monitor instance, register contents and
operating-point table, with empty logs. -/
def idle (b : icc_bwmon) (regs : Int → Nat) (table : List dev_pm_opp) : Machine :=
  { bwmon := b, regs := regs, opp_table := table, reads := [], writes := [], set_opp_calls := [] }

/-- The machine with `bwmon->target_mbps` set to a sampled bandwidth `t`, as the
fast handler leaves it for the threaded handler. -/
def with_target (m : Machine) (t : Nat) : Machine :=
  { m with bwmon := { m.bwmon with target_mbps := t } }

/-- Register contents with the IRQ status register at `status`, the zone-max
register of zone `zone` at `raw`, and every other register at `0`. -/
def regs_with (status : Nat) (zone : Int) (raw : Nat) : Int → Nat :=
  fun o => if o = BWMON_IRQ_STATUS then status else if o = BWMON_ZONE_MAX zone then raw else 0

/-! ## Device bring-up -/

/-- Modelled from the spec: the macro `order_base_2` (include/linux/log2.h) is
not part of the sources at hand.  The spec names the count shift it yields for
`SZ_1M`: "shift `20` (i.e., `1<<20` normalization)"; in general it is the
base-2 logarithm rounded up, `0` on `0` and `1`. -/
def order_base_2 (n : Nat) : Nat :=
  if n ≤ 1 then 0 else fls_from 64 ((n - 1) % 2 ^ 64)

/-- Modelled from the spec: the errno `ENOMEM` (12). -/
def ENOMEM : Int := 12

/-- Modelled from the spec: the errno `EINVAL` (22). -/
def EINVAL : Int := 22

/-- What the kernel hands to `bwmon_probe`: the answers of the allocation, of
the match-data lookup, of the register mapping, of the interrupt lookup, of the
two device-tree property reads (return code and value), of the OPP table
registration and of the interrupt request, together with the register block and
the operating-point table of the device. -/
structure probe_env where
  alloc_ok : Bool
  data : Option icc_bwmon_data
  base_ok : Bool
  irq : Int
  max_bw_ret : Int
  max_bw : Nat
  min_bw_ret : Int
  min_bw : Nat
  opp_add_ret : Int
  request_irq_ret : Int
  regs : Int → Nat
  opp_table : List dev_pm_opp

/-- The zero-filled instance `devm_kzalloc` returns, on the device's register
block and table, with empty logs. -/
def probe_start (env : probe_env) : Machine :=
  idle ⟨0, 0, 0, 0, 0, 0⟩ env.regs env.opp_table

/-- The function `bwmon_probe`: its return code and the machine it leaves.  On
the early failures nothing has been written and the machine is the zero-filled
start. -/
def bwmon_probe (env : probe_env) : Int × Machine :=
  let m := probe_start env
  if !env.alloc_ok then (-ENOMEM, m)
  else
    match env.data with
    | none => (-EINVAL, m)
    | some data =>
      if !env.base_ok then (-EINVAL, m)
      else if env.irq < 0 then (env.irq, m)
      else if env.max_bw_ret ≠ 0 then (env.max_bw_ret, m)
      else
        let m := { m with bwmon := { m.bwmon with max_bw_mbps := env.max_bw % 2 ^ 32 } }
        if env.min_bw_ret ≠ 0 then (env.min_bw_ret, m)
        else
          let m := { m with bwmon := { m.bwmon with min_bw_mbps := env.min_bw % 2 ^ 32 } }
          if env.opp_add_ret ≠ 0 then (env.opp_add_ret, m)
          else
            let m := { m with bwmon := { m.bwmon with sample_ms := data.sample_ms % 2 ^ 32 } }
            let m := { m with bwmon := { m.bwmon with count_shift := order_base_2 SZ_1M } }
            let m := bwmon_disable m
            if env.request_irq_ret < 0 then (env.request_irq_ret, m)
            else (0, bwmon_start m data)

/-- The configuration `sdm845_bwmon_data`. -/
def sdm845_bwmon_data : icc_bwmon_data :=
  { sample_ms := 4, default_highbw_mbps := 4800, default_medbw_mbps := 512,
    default_lowbw_mbps := 0, zone1_thres_count := 0x10, zone3_thres_count := 0x1 }

/-- A device on which every step of `bwmon_probe` succeeds: the SDM845
configuration, bounds of 100 and 7000 mbps, registers reading `0`. -/
def sdm845_probe_env : probe_env :=
  { alloc_ok := true, data := some sdm845_bwmon_data, base_ok := true, irq := 5,
    max_bw_ret := 0, max_bw := 7000, min_bw_ret := 0, min_bw := 100,
    opp_add_ret := 0, request_irq_ret := 0, regs := fun _ => 0, opp_table := [⟨1000⟩] }

end Bwmon

/-! # Power-domain warming device (`drivers/thermal/pd_warming.c`) -/

namespace PdWarming

/-- The type `struct pd_warming_device`, without the `cdev` and `dev` handles. -/
structure pd_warming_device where
  id : Int
  max_state : Int
  cur_state : Int
  runtime_resumed : Bool
deriving DecidableEq, Repr

/-- A warming device together with what its calls into the kernel add up to:
the states requested from `dev_pm_genpd_set_performance_state`, in order, and
the numbers of `pm_runtime_get_sync` and `pm_runtime_put` calls made so far. -/
structure World where
  pd_wdev : pd_warming_device
  perf_state_requests : List Nat
  get_sync_calls : Nat
  put_calls : Nat
deriving DecidableEq, Repr

/-- The function `pd_wdev_set_cur_state`.  The kernel's answers are inputs:
`genpd_ret` is what `dev_pm_genpd_set_performance_state` returns, `rpm_ret` what
`pm_runtime_get_sync` or `pm_runtime_put` returns when one of them is called. -/
def pd_wdev_set_cur_state (w : World) (state : Nat) (genpd_ret rpm_ret : Int) : Int × World :=
  let w := { w with perf_state_requests := w.perf_state_requests ++ [state] }
  let ret := genpd_ret
  if ret ≠ 0 then (ret, w)
  else if state ≠ 0 && !w.pd_wdev.runtime_resumed then
    (rpm_ret,
      { w with
        get_sync_calls := w.get_sync_calls + 1
        pd_wdev := { w.pd_wdev with runtime_resumed := true } })
  else if state = 0 && w.pd_wdev.runtime_resumed then
    (rpm_ret,
      { w with
        put_calls := w.put_calls + 1
        pd_wdev := { w.pd_wdev with runtime_resumed := false } })
  else (ret, w)

/-- One call of `pd_wdev_set_cur_state` as the thermal core makes it: the
requested state and the kernel's answers during the call. -/
structure set_cur_state_call where
  state : Nat
  genpd_ret : Int
  rpm_ret : Int
deriving DecidableEq, Repr

/-- A sequence of `pd_wdev_set_cur_state` calls, oldest first. -/
def run_calls (w : World) : List set_cur_state_call → World
  | [] => w
  | c :: rest => run_calls (pd_wdev_set_cur_state w c.state c.genpd_ret c.rpm_ret).2 rest

/-- A freshly registered warming device: `runtime_resumed` is `false` and no
runtime-PM call has been made. -/
def fresh (max_state : Int) : World :=
  { pd_wdev := ⟨0, max_state, 0, false⟩, perf_state_requests := [],
    get_sync_calls := 0, put_calls := 0 }

end PdWarming

namespace Bwmon

/-! ## Arithmetic of `mult_frac` -/

theorem mul_div_split (x n d : Nat) (hd : 0 < d) :
    x * n / d = x / d * n + x % d * n / d := by
  conv_lhs => rw [← Nat.div_add_mod x d]
  rw [Nat.add_mul, Nat.mul_assoc, Nat.mul_add_div hd]

/-- Without wrap-around `mult_frac` is the truncated quotient `x * n / d`. -/
theorem mult_frac_exact (w x n d : Nat) (hd : 0 < d)
    (hrem : x % d * n < 2 ^ w) (hfit : x * n / d < 2 ^ w) :
    mult_frac w x n d = x * n / d := by
  have hsplit := mul_div_split x n d hd
  have hq : x / d * n < 2 ^ w :=
    Nat.lt_of_le_of_lt (hsplit ▸ Nat.le_add_right _ _) hfit
  unfold mult_frac
  simp only []
  rw [Nat.mod_eq_of_lt hq, Nat.mod_eq_of_lt hrem, ← hsplit, Nat.mod_eq_of_lt hfit]

/-! ## The fast handler, unfolded -/

theorem get_bitmask_order_le (count : Nat) : get_bitmask_order count ≤ 32 := by
  have h : ∀ bits x, fls_from bits x ≤ bits := by
    intro bits x
    induction bits with
    | zero => simp [fls_from]
    | succ k ih =>
      unfold fls_from
      split
      · exact Nat.le_refl _
      · exact Nat.le_succ_of_le ih
  exact h 32 _

/-- The zone-max offset selected by `bwmon_intr` is none of the three registers
written by `bwmon_disable`, nor the status register. -/
theorem zone_max_offset_ge (status : Nat) : 0x2dc ≤ BWMON_ZONE_MAX (bwmon_intr_zone status) := by
  unfold BWMON_ZONE_MAX bwmon_intr_zone
  omega

theorem bwmon_disable_regs_zone_max (m : Machine) (status : Nat) :
    (bwmon_disable m).regs (BWMON_ZONE_MAX (bwmon_intr_zone status)) =
      m.regs (BWMON_ZONE_MAX (bwmon_intr_zone status)) := by
  have h := zone_max_offset_ge status
  simp only [bwmon_disable, writel, BWMON_ENABLE, BWMON_IRQ_ENABLE, BWMON_GLOBAL_IRQ_ENABLE]
  rw [if_neg (by omega), if_neg (by omega), if_neg (by omega)]

/-- The value `bwmon_intr` stores in `target_mbps` when the status is non-zero,
in terms of the registers at entry. -/
theorem bwmon_intr_target (m : Machine) (h : (readl m BWMON_IRQ_STATUS).1 ≠ 0) :
    (bwmon_intr m).1 = irqreturn_t.IRQ_WAKE_THREAD ∧
    (bwmon_intr m).2.bwmon.target_mbps =
      (mult_frac 64
        (((m.regs (BWMON_ZONE_MAX (bwmon_intr_zone (readl m BWMON_IRQ_STATUS).1)) % 2 ^ 32)
          <<< m.bwmon.count_shift) % 2 ^ 32)
        MSEC_PER_SEC m.bwmon.sample_ms / SZ_1M) % 2 ^ 32 := by
  have hd := bwmon_disable_regs_zone_max (readl m BWMON_IRQ_STATUS).2
    (readl m BWMON_IRQ_STATUS).1
  unfold bwmon_intr
  simp only [if_neg h]
  refine ⟨trivial, ?_⟩
  simp only [readl] at hd ⊢
  rw [hd]
  rfl

/-- On a 32-bit counter value and a non-zero window, the conversion of
`bwmon_intr` neither wraps nor loses bits: it is the spec's formula. -/
theorem sample_exact (max sample_ms : Nat) (hs : 0 < sample_ms) (hmax : max < 2 ^ 32) :
    (mult_frac 64 max MSEC_PER_SEC sample_ms / SZ_1M) % 2 ^ 32 =
      max * 1000 / sample_ms / 2 ^ 20 := by
  have h1 : max % sample_ms ≤ max := Nat.mod_le _ _
  have h2 : max * 1000 / sample_ms ≤ max * 1000 := Nat.div_le_self _ _
  have hexact : mult_frac 64 max MSEC_PER_SEC sample_ms = max * 1000 / sample_ms := by
    apply mult_frac_exact 64 max MSEC_PER_SEC sample_ms hs
    · simp only [MSEC_PER_SEC]; omega
    · simp only [MSEC_PER_SEC]; omega
  rw [hexact]
  simp only [SZ_1M]
  apply Nat.mod_eq_of_lt
  omega

set_option maxRecDepth 1000000 in
/-- The core of the zone classification, checked on every status value whose
set bits lie in bits 4..7. -/
theorem zone_of_status_core :
    ∀ status < 241, status &&& 0xF0 = status → status ≠ 0 →
      ∃ k : Nat, k < 4 ∧ bwmon_intr_zone status = (k : Int) ∧
        status.testBit (4 + k) = true ∧ status < 2 ^ (5 + k) := by
  decide

/-- The registers read by `bwmon_intr` on a non-zero status: the status
register, then the zone-max register of the selected zone. -/
theorem bwmon_intr_reads (m : Machine) (h : (readl m BWMON_IRQ_STATUS).1 ≠ 0) :
    (bwmon_intr m).2.reads =
      m.reads ++ [BWMON_IRQ_STATUS,
        BWMON_ZONE_MAX (bwmon_intr_zone (readl m BWMON_IRQ_STATUS).1)] := by
  unfold bwmon_intr
  simp only [if_neg h]
  simp [readl, bwmon_disable, writel]

/-! ## The threaded handler, unfolded -/

theorem bwmon_intr_thread_target (m : Machine) :
    (bwmon_intr_thread m).2.bwmon.target_mbps = (bwmon_intr_thread_locals m).target_mbps := by
  unfold bwmon_intr_thread
  simp only [bwmon_enable, bwmon_clear, bwmon_set_threshold, writel]
  split <;> rfl

theorem bwmon_intr_thread_current (m : Machine) :
    (bwmon_intr_thread m).2.bwmon.current_mbps = (bwmon_intr_thread_locals m).target_mbps := by
  unfold bwmon_intr_thread
  simp only [bwmon_enable, bwmon_clear, bwmon_set_threshold, writel]
  split
  · next h => exact h.symm
  · rfl

theorem bwmon_intr_thread_set_opp_calls (m : Machine) :
    (bwmon_intr_thread m).2.set_opp_calls =
      if (bwmon_intr_thread_locals m).target_mbps = m.bwmon.current_mbps then m.set_opp_calls
      else m.set_opp_calls ++ [(bwmon_intr_thread_locals m).target_opp] := by
  unfold bwmon_intr_thread
  simp only [bwmon_enable, bwmon_clear, bwmon_set_threshold, writel]
  split <;> rfl

/-- What `bwmon_intr_thread` leaves alone: the table and the configured
fields of the instance. -/
theorem bwmon_intr_thread_frame (m : Machine) :
    (bwmon_intr_thread m).2.opp_table = m.opp_table ∧
    (bwmon_intr_thread m).2.bwmon.max_bw_mbps = m.bwmon.max_bw_mbps ∧
    (bwmon_intr_thread m).2.bwmon.min_bw_mbps = m.bwmon.min_bw_mbps ∧
    (bwmon_intr_thread m).2.bwmon.sample_ms = m.bwmon.sample_ms ∧
    (bwmon_intr_thread m).2.bwmon.count_shift = m.bwmon.count_shift := by
  unfold bwmon_intr_thread
  simp only [bwmon_enable, bwmon_clear, bwmon_set_threshold, writel]
  split <;> exact ⟨rfl, rfl, rfl, rfl, rfl⟩

/-- The register writes of one pass of `bwmon_intr_thread`, in order. -/
theorem bwmon_intr_thread_writes (m : Machine) :
    (bwmon_intr_thread m).2.writes =
      m.writes ++
        [(BWMON_THRESHOLD_HIGH,
            mult_frac 32 ((bwmon_intr_thread_locals m).up_mbps % 2 ^ 32) m.bwmon.sample_ms
              MSEC_PER_SEC % 2 ^ 32),
         (BWMON_THRESHOLD_MED,
            mult_frac 32 ((bwmon_intr_thread_locals m).down_mbps % 2 ^ 32) m.bwmon.sample_ms
              MSEC_PER_SEC % 2 ^ 32),
         (BWMON_IRQ_CLEAR, 0xa0), (BWMON_GLOBAL_IRQ_CLEAR, 1), (BWMON_CLEAR, 1),
         (BWMON_GLOBAL_IRQ_ENABLE, 1),
         (BWMON_IRQ_ENABLE, (bwmon_intr_thread_locals m).irq_enable % 2 ^ 32),
         (BWMON_ENABLE, 1)] := by
  unfold bwmon_intr_thread
  simp only [bwmon_enable, bwmon_clear, bwmon_set_threshold, writel]
  split <;> simp [BIT, BWMON_CLEAR_CLEAR, BWMON_GLOBAL_IRQ_ENABLE_ENABLE, BWMON_ENABLE_ENABLE]

/-- The per-zone interrupt mask register after one pass. -/
theorem bwmon_intr_thread_irq_enable_reg (m : Machine) :
    (bwmon_intr_thread m).2.regs BWMON_IRQ_ENABLE =
      (bwmon_intr_thread_locals m).irq_enable % 2 ^ 32 := by
  unfold bwmon_intr_thread
  simp only [bwmon_enable, bwmon_clear, bwmon_set_threshold, writel]
  split <;> simp [BWMON_IRQ_ENABLE, BWMON_ENABLE]

/-! ## The operating-point lookups -/

theorem find_bw_floor_from_all_le (bw : Nat) :
    ∀ (l : List dev_pm_opp) (found : Option dev_pm_opp) (hne : l ≠ []),
      (∀ e ∈ l, e.peak ≤ bw) → find_bw_floor_from l bw found = some (l.getLast hne) := by
  intro l
  induction l with
  | nil => intro _ hne; exact absurd rfl hne
  | cons e rest ih =>
    intro found hne hall
    have he : ¬ bw < e.peak := Nat.not_lt.mpr (hall e (List.mem_cons_self _ _))
    unfold find_bw_floor_from
    rw [if_neg he]
    cases rest with
    | nil => rfl
    | cons e2 rest2 =>
      rw [ih (some e) (List.cons_ne_nil _ _) (fun x hx => hall x (List.mem_cons_of_mem _ hx))]
      rfl

theorem find_bw_floor_from_some (bw : Nat) :
    ∀ (l : List dev_pm_opp) (found : Option dev_pm_opp) (e : dev_pm_opp),
      find_bw_floor_from l bw found = some e → (e ∈ l ∧ e.peak ≤ bw) ∨ found = some e := by
  intro l
  induction l with
  | nil => intro found e h; exact Or.inr h
  | cons a rest ih =>
    intro found e h
    unfold find_bw_floor_from at h
    split at h
    · exact Or.inr h
    · next hlt =>
      rcases ih (some a) e h with ⟨hmem, hle⟩ | hsome
      · exact Or.inl ⟨List.mem_cons_of_mem _ hmem, hle⟩
      · have hae : a = e := Option.some.inj hsome
        subst hae
        exact Or.inl ⟨List.mem_cons_self _ _, Nat.not_lt.mp hlt⟩

/-- The floor lookup answers with an entry of the table at or below `bw`, or
with `-ERANGE` and `bw` untouched. -/
theorem dev_pm_opp_find_bw_floor_cases (table : List dev_pm_opp) (bw : Nat) :
    (∃ e ∈ table, e.peak ≤ bw ∧ dev_pm_opp_find_bw_floor table bw = (opp_ptr.ok e, e.peak)) ∨
    dev_pm_opp_find_bw_floor table bw = (opp_ptr.err (-ERANGE), bw) := by
  unfold dev_pm_opp_find_bw_floor
  cases h : find_bw_floor_from table bw none with
  | none => exact Or.inr rfl
  | some e =>
    rcases find_bw_floor_from_some bw table none e h with ⟨hmem, hle⟩ | hnone
    · exact Or.inl ⟨e, hmem, hle, rfl⟩
    · exact absurd hnone (by simp)

/-- In a table sorted by bandwidth the last entry is a maximum. -/
theorem sorted_le_getLast :
    ∀ (l : List dev_pm_opp) (hne : l ≠ []),
      l.Pairwise (fun a b => a.peak ≤ b.peak) → ∀ e ∈ l, e.peak ≤ (l.getLast hne).peak := by
  intro l
  induction l with
  | nil => intro hne; exact absurd rfl hne
  | cons a rest ih =>
    intro hne hsorted e he
    cases rest with
    | nil =>
      rcases List.mem_singleton.mp he with rfl
      exact Nat.le_refl _
    | cons b rest2 =>
      have hrest := (List.pairwise_cons.mp hsorted).2
      have hhead := (List.pairwise_cons.mp hsorted).1
      have hlast : (a :: b :: rest2).getLast hne = (b :: rest2).getLast (List.cons_ne_nil _ _) :=
        rfl
      rw [hlast]
      rcases List.mem_cons.mp he with rfl | hmem
      · exact hhead _ (List.getLast_mem _)
      · exact ih (List.cons_ne_nil _ _) hrest e hmem

/-- On a non-empty table the first step of the threaded handler always ends
with an entry of the table, and `bw_kbps` refreshed to its bandwidth. -/
theorem find_target_opp_ok (table : List dev_pm_opp) (bw : Nat) (hne : table ≠ []) :
    ∃ e ∈ table, find_target_opp table bw = (opp_ptr.ok e, e.peak) := by
  unfold find_target_opp dev_pm_opp_find_bw_ceil
  cases h : table.find? (fun e => decide (bw ≤ e.peak)) with
  | some e =>
    exact ⟨e, List.mem_of_find?_eq_some h, by simp [IS_ERR]⟩
  | none =>
    have hall : ∀ e ∈ table, e.peak ≤ bw := by
      intro e he
      have := List.find?_eq_none.mp h e he
      simp only [decide_eq_true_eq] at this
      omega
    refine ⟨table.getLast hne, List.getLast_mem _, ?_⟩
    simp [IS_ERR, PTR_ERR, dev_pm_opp_find_bw_floor, find_bw_floor_from_all_le bw table none hne hall]

/-- When every entry lies below `bw`, the ceiling lookup answers `-ERANGE` and
the first step ends with the last entry of the table. -/
theorem find_target_opp_above (table : List dev_pm_opp) (bw : Nat) (hne : table ≠ [])
    (habove : ∀ e ∈ table, e.peak < bw) :
    (dev_pm_opp_find_bw_ceil table bw).1 = opp_ptr.err (-ERANGE) ∧
    find_target_opp table bw = (opp_ptr.ok (table.getLast hne), (table.getLast hne).peak) := by
  have hnone : table.find? (fun e => decide (bw ≤ e.peak)) = none := by
    apply List.find?_eq_none.mpr
    intro e he
    have := habove e he
    simp only [decide_eq_true_eq]
    omega
  have hall : ∀ e ∈ table, e.peak ≤ bw := fun e he => Nat.le_of_lt (habove e he)
  unfold find_target_opp dev_pm_opp_find_bw_ceil
  rw [hnone]
  simp [IS_ERR, PTR_ERR, dev_pm_opp_find_bw_floor, find_bw_floor_from_all_le bw table none hne hall]

/-- The mask chosen by the threaded handler, by cases on the resolved target. -/
theorem bwmon_intr_thread_locals_irq_enable (m : Machine) :
    (bwmon_intr_thread_locals m).irq_enable =
      if (bwmon_intr_thread_locals m).target_mbps ≥ m.bwmon.max_bw_mbps then 0x20
      else if (bwmon_intr_thread_locals m).target_mbps ≤ m.bwmon.min_bw_mbps then 0x80
      else 0xA0 := by
  unfold bwmon_intr_thread_locals
  simp only [BWMON_IRQ_ENABLE_ZONE1_SHIFT, BWMON_IRQ_ENABLE_ZONE3_SHIFT]
  split
  · rfl
  · split <;> rfl

/-- Whatever the window, a sampled bandwidth stays below `4096000` mbps: the
counter is a shifted 32-bit value. -/
theorem bwmon_intr_target_lt (m : Machine) (h : (readl m BWMON_IRQ_STATUS).1 ≠ 0) :
    (bwmon_intr m).2.bwmon.target_mbps < 4096000 := by
  rw [(bwmon_intr_target m h).2]
  generalize hmax : ((m.regs (BWMON_ZONE_MAX (bwmon_intr_zone (readl m BWMON_IRQ_STATUS).1))
    % 2 ^ 32) <<< m.bwmon.count_shift) % 2 ^ 32 = max
  have hlt : max < 2 ^ 32 := by rw [← hmax]; exact Nat.mod_lt _ (by decide)
  rcases Nat.eq_zero_or_pos m.bwmon.sample_ms with h0 | hpos
  · rw [h0]
    simp [mult_frac]
  · rw [sample_exact max m.bwmon.sample_ms hpos hlt]
    have h2 : max * 1000 / m.bwmon.sample_ms ≤ max * 1000 := Nat.div_le_self _ _
    omega

/-- What `bwmon_intr` leaves alone on every path: the table, the commit log and
every field of the instance but `target_mbps`. -/
theorem bwmon_intr_frame (m : Machine) :
    (bwmon_intr m).2.opp_table = m.opp_table ∧
    (bwmon_intr m).2.set_opp_calls = m.set_opp_calls ∧
    (bwmon_intr m).2.bwmon.current_mbps = m.bwmon.current_mbps := by
  unfold bwmon_intr
  simp only []
  split <;> exact ⟨rfl, rfl, rfl⟩

/-- The locals of the threaded handler when its first step found the entry
`e`: the target is `e.peak / 1000`, and the down-neighbour lookup is the floor
lookup at `e.peak - 1` (a 64-bit decrement). -/
theorem bwmon_intr_thread_locals_of_found (m : Machine) (e : dev_pm_opp)
    (hfound : find_target_opp m.opp_table ((m.bwmon.target_mbps * 1000) % 2 ^ 32) =
      (opp_ptr.ok e, e.peak)) :
    (bwmon_intr_thread_locals m).target_opp = opp_ptr.ok e ∧
    (bwmon_intr_thread_locals m).target_mbps = (e.peak / 1000) % 2 ^ 32 ∧
    (bwmon_intr_thread_locals m).up_mbps = ((e.peak / 1000) % 2 ^ 32 + 1) % 2 ^ 32 ∧
    (bwmon_intr_thread_locals m).opp =
      (dev_pm_opp_find_bw_floor m.opp_table ((e.peak + (2 ^ 64 - 1)) % 2 ^ 64)).1 ∧
    (bwmon_intr_thread_locals m).down_mbps =
      (if IS_ERR (dev_pm_opp_find_bw_floor m.opp_table ((e.peak + (2 ^ 64 - 1)) % 2 ^ 64)).1 &&
          PTR_ERR (dev_pm_opp_find_bw_floor m.opp_table ((e.peak + (2 ^ 64 - 1)) % 2 ^ 64)).1
            == -ERANGE
       then (e.peak / 1000) % 2 ^ 32
       else ((dev_pm_opp_find_bw_floor m.opp_table
          ((e.peak + (2 ^ 64 - 1)) % 2 ^ 64)).2 / 1000) % 2 ^ 32) := by
  unfold bwmon_intr_thread_locals
  simp only [hfound]
  exact ⟨trivial, trivial, trivial, trivial, trivial⟩

/-! ## Threshold programming (C1) -/

/-- C1, as stated, fails: with `sample_ms = 2000` and `bandwidth_mbps = 2^32 - 1`
the quotient `floor(bandwidth_mbps * sample_ms / 1000)` is `8589934590`, which no
32-bit register can hold; `bwmon_set_threshold` leaves `4294967294` in the
high-threshold register. -/
theorem bwmon_set_threshold_wraps :
    (0 < (2000 : Nat) ∧ (4294967295 : Nat) < 2 ^ 32) ∧
    (bwmon_set_threshold (idle ⟨2000, 20, 0, 0, 0, 0⟩ (fun _ => 0) [])
        BWMON_THRESHOLD_HIGH 4294967295).regs BWMON_THRESHOLD_HIGH = 4294967294 ∧
    (bwmon_set_threshold (idle ⟨2000, 20, 0, 0, 0, 0⟩ (fun _ => 0) [])
        BWMON_THRESHOLD_HIGH 4294967295).regs BWMON_THRESHOLD_HIGH ≠
      4294967295 * 2000 / 1000 := by
  decide

/-- C1 (amended): for a 32-bit `bandwidth_mbps` and a `sample_ms` such that
neither the remainder product `(bandwidth_mbps % 1000) * sample_ms` nor the
quotient `floor(bandwidth_mbps * sample_ms / 1000)` exceeds 32 bits, after
`bwmon_set_threshold(bwmon, reg, bandwidth_mbps)` the register `reg` holds
`floor(bandwidth_mbps * sample_ms / 1000)`, and that one write is all the
function does to the register block. -/
theorem bwmon_set_threshold_holds_floor (m : Machine) (reg : Int) (mbps : Nat)
    (hmbps : mbps < 2 ^ 32)
    (hrem : mbps % 1000 * m.bwmon.sample_ms < 2 ^ 32)
    (hfit : mbps * m.bwmon.sample_ms / 1000 < 2 ^ 32) :
    (bwmon_set_threshold m reg mbps).regs reg = mbps * m.bwmon.sample_ms / 1000 ∧
    (bwmon_set_threshold m reg mbps).writes =
      m.writes ++ [(reg, mbps * m.bwmon.sample_ms / 1000)] := by
  have hexact : mult_frac 32 (mbps % 2 ^ 32) m.bwmon.sample_ms MSEC_PER_SEC =
      mbps * m.bwmon.sample_ms / 1000 := by
    rw [Nat.mod_eq_of_lt hmbps]
    exact mult_frac_exact 32 mbps m.bwmon.sample_ms 1000 (by decide) hrem hfit
  simp only [bwmon_set_threshold, writel, hexact, if_true, Nat.mod_eq_of_lt hfit, and_self]

/-- The scenario of C1: with `sample_ms = 4` and `bandwidth_mbps = 4800` the
high-threshold register holds `19`. -/
theorem bwmon_set_threshold_holds_floor_witness :
    (bwmon_set_threshold (idle ⟨4, 20, 0, 0, 0, 0⟩ (fun _ => 0) [])
        BWMON_THRESHOLD_HIGH 4800).regs BWMON_THRESHOLD_HIGH = 19 ∧
    (bwmon_set_threshold (idle ⟨4, 20, 0, 0, 0, 0⟩ (fun _ => 0) [])
        BWMON_THRESHOLD_HIGH 4800).writes = [] ++ [(BWMON_THRESHOLD_HIGH, 19)] :=
  bwmon_set_threshold_holds_floor (idle ⟨4, 20, 0, 0, 0, 0⟩ (fun _ => 0) [])
    BWMON_THRESHOLD_HIGH 4800 (by decide) (by decide) (by decide)

/-! ## Fast handler (C2 to C5) -/

/-- C2: for every `sample_ms > 0`, count shift `s` and raw zone-max counter
value `r` with `r * 2^s < 2^32`, and every status with one of the zone bits
4..7 set, `bwmon_intr` returns `IRQ_WAKE_THREAD` and stores
`target_mbps = floor(floor((r << s) * 1000 / sample_ms) / 2^20)`. -/
theorem bwmon_intr_stores_bandwidth (m : Machine) (status r s : Nat)
    (hsample : 0 < m.bwmon.sample_ms)
    (hstatus : (readl m BWMON_IRQ_STATUS).1 = status)
    (hzone : status &&& 0xF0 ≠ 0)
    (hshift : m.bwmon.count_shift = s)
    (hraw : m.regs (BWMON_ZONE_MAX (bwmon_intr_zone status)) = r)
    (hfit : r * 2 ^ s < 2 ^ 32) :
    (bwmon_intr m).1 = irqreturn_t.IRQ_WAKE_THREAD ∧
    (bwmon_intr m).2.bwmon.target_mbps = (r <<< s) * 1000 / m.bwmon.sample_ms / 2 ^ 20 := by
  have hne : (readl m BWMON_IRQ_STATUS).1 ≠ 0 := by
    rw [hstatus]
    intro h0
    exact hzone (by rw [h0]; exact Nat.zero_and _)
  have hr : r < 2 ^ 32 :=
    Nat.lt_of_le_of_lt (Nat.le_mul_of_pos_right r (Nat.two_pow_pos s)) hfit
  obtain ⟨hret, htarget⟩ := bwmon_intr_target m hne
  refine ⟨hret, ?_⟩
  rw [htarget, hstatus, hraw, hshift, Nat.mod_eq_of_lt hr, Nat.shiftLeft_eq,
    Nat.mod_eq_of_lt hfit]
  exact sample_exact (r * 2 ^ s) m.bwmon.sample_ms hsample hfit

/-- An instance of C2: window of 4 ms, shift 12, zone 3 pending with raw peak
counter 1000. -/
theorem bwmon_intr_stores_bandwidth_witness :
    (bwmon_intr (idle ⟨4, 12, 0, 0, 0, 0⟩ (regs_with 0x80 3 1000) [])).1 =
      irqreturn_t.IRQ_WAKE_THREAD ∧
    (bwmon_intr (idle ⟨4, 12, 0, 0, 0, 0⟩ (regs_with 0x80 3 1000) [])).2.bwmon.target_mbps =
      (1000 <<< 12) * 1000 / 4 / 2 ^ 20 :=
  bwmon_intr_stores_bandwidth (idle ⟨4, 12, 0, 0, 0, 0⟩ (regs_with 0x80 3 1000) [])
    0x80 1000 12 (by decide) (by decide) (by decide) rfl (by decide) (by decide)

/-- C3, as stated, fails: with raw zone-max counter 2000, count shift 20 and
`sample_ms = 4` the handler computes `(2000<<20)*1000/4/1048576`, which is
`500000`, and stores that; it does not store `488`. -/
theorem bwmon_intr_scenario_not_488 :
    (2000 <<< 20) * 1000 / 4 / 1048576 = 500000 ∧
    (bwmon_intr (idle ⟨4, 20, 0, 0, 0, 0⟩ (regs_with 0x80 3 2000) [])).2.bwmon.target_mbps =
      500000 ∧
    (bwmon_intr (idle ⟨4, 20, 0, 0, 0, 0⟩ (regs_with 0x80 3 2000) [])).2.bwmon.target_mbps ≠
      488 := by
  decide

/-- C3 (amended): with raw zone-max counter 2000, count shift 20 and
`sample_ms = 4`, the fast handler `bwmon_intr` computes
`(2000<<20)*1000/4/1048576` and stores `target_mbps = 500000`. -/
theorem bwmon_intr_scenario (m : Machine) (status : Nat)
    (hsample : m.bwmon.sample_ms = 4)
    (hshift : m.bwmon.count_shift = 20)
    (hstatus : (readl m BWMON_IRQ_STATUS).1 = status)
    (hzone : status &&& 0xF0 ≠ 0)
    (hraw : m.regs (BWMON_ZONE_MAX (bwmon_intr_zone status)) = 2000) :
    (bwmon_intr m).2.bwmon.target_mbps = (2000 <<< 20) * 1000 / 4 / 1048576 ∧
    (bwmon_intr m).2.bwmon.target_mbps = 500000 := by
  have hne : (readl m BWMON_IRQ_STATUS).1 ≠ 0 := by
    rw [hstatus]
    intro h0
    exact hzone (by rw [h0]; exact Nat.zero_and _)
  obtain ⟨_, htarget⟩ := bwmon_intr_target m hne
  rw [htarget, hstatus, hraw, hshift, hsample]
  decide

/-- The scenario of C3 on a machine with zone 3 pending. -/
theorem bwmon_intr_scenario_witness :
    (bwmon_intr (idle ⟨4, 20, 0, 0, 0, 0⟩ (regs_with 0x80 3 2000) [])).2.bwmon.target_mbps =
      (2000 <<< 20) * 1000 / 4 / 1048576 ∧
    (bwmon_intr (idle ⟨4, 20, 0, 0, 0, 0⟩ (regs_with 0x80 3 2000) [])).2.bwmon.target_mbps =
      500000 :=
  bwmon_intr_scenario (idle ⟨4, 20, 0, 0, 0, 0⟩ (regs_with 0x80 3 2000) []) 0x80
    rfl rfl (by decide) (by decide) (by decide)

/-- C4: whenever the per-zone IRQ status register reads 0, `bwmon_intr` returns
`IRQ_NONE`, performs no register write, and leaves every field of the monitor
instance, the register contents and the commit log unchanged. -/
theorem bwmon_intr_spurious (m : Machine) (hstatus : (readl m BWMON_IRQ_STATUS).1 = 0) :
    (bwmon_intr m).1 = irqreturn_t.IRQ_NONE ∧
    (bwmon_intr m).2.writes = m.writes ∧
    (bwmon_intr m).2.bwmon = m.bwmon ∧
    (bwmon_intr m).2.regs = m.regs ∧
    (bwmon_intr m).2.set_opp_calls = m.set_opp_calls := by
  unfold bwmon_intr
  simp only [if_pos hstatus]
  exact ⟨trivial, rfl, rfl, rfl, rfl⟩

/-- An instance of C4: a machine whose registers all read 0. -/
theorem bwmon_intr_spurious_witness :
    (bwmon_intr (idle ⟨4, 20, 7000, 100, 5, 3⟩ (fun _ => 0) [])).1 = irqreturn_t.IRQ_NONE ∧
    (bwmon_intr (idle ⟨4, 20, 7000, 100, 5, 3⟩ (fun _ => 0) [])).2.writes = [] ∧
    (bwmon_intr (idle ⟨4, 20, 7000, 100, 5, 3⟩ (fun _ => 0) [])).2.bwmon =
      ⟨4, 20, 7000, 100, 5, 3⟩ ∧
    (bwmon_intr (idle ⟨4, 20, 7000, 100, 5, 3⟩ (fun _ => 0) [])).2.regs = (fun _ => 0) ∧
    (bwmon_intr (idle ⟨4, 20, 7000, 100, 5, 3⟩ (fun _ => 0) [])).2.set_opp_calls = [] :=
  bwmon_intr_spurious (idle ⟨4, 20, 7000, 100, 5, 3⟩ (fun _ => 0) []) (by decide)

/-- C5: for every status value whose set bits all lie in bits 4..7, with at
least one of them set, the zone `get_bitmask_order(status >> 4) - 1` computed by
`bwmon_intr` is the index `k` in [0,3] of the highest set bit `4 + k`, and the
counter register read is `0x2E0 + 4*k`; in particular a status with exactly one
bit `4 + k` set yields zone `k`. -/
theorem bwmon_intr_zone_highest_bit (m : Machine) (status : Nat)
    (hstatus : (readl m BWMON_IRQ_STATUS).1 = status)
    (hbits : status &&& 0xF0 = status) (hne : status ≠ 0) :
    (∃ k : Nat, k ≤ 3 ∧ bwmon_intr_zone status = (k : Int) ∧
      status.testBit (4 + k) = true ∧ (∀ j, 4 + k < j → status.testBit j = false) ∧
      BWMON_ZONE_MAX (bwmon_intr_zone status) = 0x2e0 + 4 * (k : Int) ∧
      (bwmon_intr m).2.reads = m.reads ++ [BWMON_IRQ_STATUS, 0x2e0 + 4 * (k : Int)]) ∧
    (∀ k : Nat, k ≤ 3 → bwmon_intr_zone (1 <<< (4 + k)) = (k : Int)) := by
  constructor
  · have hle : status < 241 := by
      have := @Nat.and_le_right status 0xF0
      omega
    obtain ⟨k, hk, hzone, hbit, hlt⟩ := zone_of_status_core status hle hbits hne
    refine ⟨k, by omega, hzone, hbit, ?_, ?_, ?_⟩
    · intro j hj
      apply Nat.testBit_lt_two_pow
      exact Nat.lt_of_lt_of_le hlt (Nat.pow_le_pow_right (by decide) (by omega))
    · rw [hzone]; rfl
    · have hnz : (readl m BWMON_IRQ_STATUS).1 ≠ 0 := by rw [hstatus]; exact hne
      rw [bwmon_intr_reads m hnz, hstatus, hzone]
      rfl
  · intro k hk
    interval_cases k <;> decide

/-- An instance of C5: zones 2 and 0 pending together (status `0x50`) select
zone 2 and the counter register `0x2E8`. -/
theorem bwmon_intr_zone_highest_bit_witness :
    (∃ k : Nat, k ≤ 3 ∧ bwmon_intr_zone 0x50 = (k : Int) ∧
      (0x50 : Nat).testBit (4 + k) = true ∧ (∀ j, 4 + k < j → (0x50 : Nat).testBit j = false) ∧
      BWMON_ZONE_MAX (bwmon_intr_zone 0x50) = 0x2e0 + 4 * (k : Int) ∧
      (bwmon_intr (idle ⟨4, 20, 0, 0, 0, 0⟩ (regs_with 0x50 2 7) [])).2.reads =
        [] ++ [BWMON_IRQ_STATUS, 0x2e0 + 4 * (k : Int)]) ∧
    (∀ k : Nat, k ≤ 3 → bwmon_intr_zone (1 <<< (4 + k)) = (k : Int)) :=
  bwmon_intr_zone_highest_bit (idle ⟨4, 20, 0, 0, 0, 0⟩ (regs_with 0x50 2 7) []) 0x50
    (by decide) (by decide) (by decide)

/-! ## Threaded handler (C6 to C10) -/

/-- C6, as stated, fails: on a pass whose table-resolved `target_mbps` (2) is at
or above `max_bw_mbps` (1), the mask written to the IRQ-enable register is
`0x20`, the zone-1 bit 5, and not the zone-3 bit 7 that the claim calls the
high-zone interrupt. -/
theorem bwmon_intr_thread_mask_at_ceiling :
    (bwmon_intr_thread (idle ⟨4, 20, 1, 0, 5, 0⟩ (fun _ => 0) [⟨1000⟩, ⟨2000⟩])).2.bwmon.target_mbps
      ≥ (idle ⟨4, 20, 1, 0, 5, 0⟩ (fun _ => 0) [⟨1000⟩, ⟨2000⟩]).bwmon.max_bw_mbps ∧
    (bwmon_intr_thread (idle ⟨4, 20, 1, 0, 5, 0⟩ (fun _ => 0) [⟨1000⟩, ⟨2000⟩])).2.regs
      BWMON_IRQ_ENABLE = 1 <<< 5 ∧
    (bwmon_intr_thread (idle ⟨4, 20, 1, 0, 5, 0⟩ (fun _ => 0) [⟨1000⟩, ⟨2000⟩])).2.regs
      BWMON_IRQ_ENABLE ≠ 1 <<< 7 := by
  decide

/-- C6 (amended): on every pass of `bwmon_intr_thread` the per-zone interrupt
mask written to the IRQ-enable register is decided by the table-resolved
`target_mbps`: if `target_mbps >= max_bw_mbps` only the zone-1 interrupt (bit 5,
mask `0x20`) is armed, else if `target_mbps <= min_bw_mbps` only the zone-3
interrupt (bit 7, mask `0x80`) is armed, otherwise both are armed (mask `0xA0`).
The mask is the next-to-last write of the pass, just before the monitor
enable. -/
theorem bwmon_intr_thread_mask (m : Machine) :
    (bwmon_intr_thread m).2.bwmon.target_mbps = (bwmon_intr_thread_locals m).target_mbps ∧
    (bwmon_intr_thread m).2.regs BWMON_IRQ_ENABLE =
      (if (bwmon_intr_thread m).2.bwmon.target_mbps ≥ m.bwmon.max_bw_mbps then 1 <<< 5
       else if (bwmon_intr_thread m).2.bwmon.target_mbps ≤ m.bwmon.min_bw_mbps then 1 <<< 7
       else 1 <<< 5 ||| 1 <<< 7) ∧
    (1 <<< 5 ||| 1 <<< 7 = 0xA0) ∧
    ∃ hi med, (bwmon_intr_thread m).2.writes =
      m.writes ++
        [(BWMON_THRESHOLD_HIGH, hi), (BWMON_THRESHOLD_MED, med),
         (BWMON_IRQ_CLEAR, 0xa0), (BWMON_GLOBAL_IRQ_CLEAR, 1), (BWMON_CLEAR, 1),
         (BWMON_GLOBAL_IRQ_ENABLE, 1),
         (BWMON_IRQ_ENABLE, (bwmon_intr_thread m).2.regs BWMON_IRQ_ENABLE),
         (BWMON_ENABLE, 1)] := by
  have hreg := bwmon_intr_thread_irq_enable_reg m
  refine ⟨bwmon_intr_thread_target m, ?_, by decide, ?_⟩
  · rw [hreg, bwmon_intr_thread_target, bwmon_intr_thread_locals_irq_enable]
    split
    · rfl
    · split <;> rfl
  · rw [hreg]
    exact ⟨_, _, bwmon_intr_thread_writes m⟩

/-- C7, as stated, fails: on the monotonic table `[1000, 1500]` kbps a sample of
2 mbps resolves to the entry 1500 (1 mbps); the floor lookup below it succeeds
with the entry 1000, which is 1 mbps as well, so the med threshold is programmed
from `down_mbps = 1`, not strictly below the committed `current_mbps = 1`, and
no lookup reported out-of-range. -/
theorem bwmon_intr_thread_down_not_below :
    ([⟨1000⟩, ⟨1500⟩] : List dev_pm_opp).Pairwise (fun a b => a.peak < b.peak) ∧
    (bwmon_intr_thread_locals
      (idle ⟨4, 20, 7000, 0, 2, 0⟩ (fun _ => 0) [⟨1000⟩, ⟨1500⟩])).opp = opp_ptr.ok ⟨1000⟩ ∧
    (bwmon_intr_thread_locals
      (idle ⟨4, 20, 7000, 0, 2, 0⟩ (fun _ => 0) [⟨1000⟩, ⟨1500⟩])).down_mbps = 1 ∧
    (bwmon_intr_thread
      (idle ⟨4, 20, 7000, 0, 2, 0⟩ (fun _ => 0) [⟨1000⟩, ⟨1500⟩])).2.bwmon.current_mbps = 1 ∧
    ¬ ((bwmon_intr_thread_locals
      (idle ⟨4, 20, 7000, 0, 2, 0⟩ (fun _ => 0) [⟨1000⟩, ⟨1500⟩])).down_mbps <
        (bwmon_intr_thread
          (idle ⟨4, 20, 7000, 0, 2, 0⟩ (fun _ => 0) [⟨1000⟩, ⟨1500⟩])).2.bwmon.current_mbps) := by
  decide

/-- C7 (amended): hysteresis on tables that stay distinct in whole mbps.  For
every monitor state and every non-empty operating-point table whose entries are
positive, fit the 32-bit bandwidth field, and differ in mbps (`kbps / 1000`)
whenever they differ in kbps (as when all are multiples of 1000 kbps), after a
`bwmon_intr_thread` pass the bandwidth programmed into the high threshold
(`up_mbps`) is `current_mbps + 1`, strictly greater than the committed bandwidth
`current_mbps`, and the bandwidth programmed into the med threshold
(`down_mbps`) is strictly less than `current_mbps`, except when the floor
lookup below the target reports out-of-range, in which case `down_mbps` equals
`current_mbps`. -/
theorem bwmon_intr_thread_hysteresis (m : Machine)
    (hne : m.opp_table ≠ [])
    (hu32 : ∀ e ∈ m.opp_table, e.peak < 2 ^ 32)
    (hpos : ∀ e ∈ m.opp_table, 0 < e.peak)
    (hdistinct : ∀ a ∈ m.opp_table, ∀ b ∈ m.opp_table,
      a.peak < b.peak → a.peak / 1000 < b.peak / 1000) :
    (bwmon_intr_thread_locals m).up_mbps = (bwmon_intr_thread m).2.bwmon.current_mbps + 1 ∧
    (bwmon_intr_thread m).2.bwmon.current_mbps < (bwmon_intr_thread_locals m).up_mbps ∧
    ((bwmon_intr_thread_locals m).opp = opp_ptr.err (-ERANGE) →
      (bwmon_intr_thread_locals m).down_mbps = (bwmon_intr_thread m).2.bwmon.current_mbps) ∧
    ((bwmon_intr_thread_locals m).opp ≠ opp_ptr.err (-ERANGE) →
      (bwmon_intr_thread_locals m).down_mbps < (bwmon_intr_thread m).2.bwmon.current_mbps) ∧
    (∃ rest, (bwmon_intr_thread m).2.writes =
      m.writes ++
        (BWMON_THRESHOLD_HIGH,
          mult_frac 32 ((bwmon_intr_thread_locals m).up_mbps % 2 ^ 32) m.bwmon.sample_ms
            MSEC_PER_SEC % 2 ^ 32) ::
        (BWMON_THRESHOLD_MED,
          mult_frac 32 ((bwmon_intr_thread_locals m).down_mbps % 2 ^ 32) m.bwmon.sample_ms
            MSEC_PER_SEC % 2 ^ 32) :: rest) := by
  obtain ⟨e, he, hfound⟩ :=
    find_target_opp_ok m.opp_table ((m.bwmon.target_mbps * 1000) % 2 ^ 32) hne
  obtain ⟨_, htarget, hup, hopp, hdown⟩ := bwmon_intr_thread_locals_of_found m e hfound
  have hlt := hu32 e he
  have hpos := hpos e he
  have hdec : (e.peak + (2 ^ 64 - 1)) % 2 ^ 64 = e.peak - 1 := by omega
  rw [hdec] at hopp hdown
  have ht : e.peak / 1000 % 2 ^ 32 = e.peak / 1000 := by omega
  rw [ht] at htarget hup hdown
  have hcur : (bwmon_intr_thread m).2.bwmon.current_mbps = e.peak / 1000 := by
    rw [bwmon_intr_thread_current, htarget]
  have hup2 : (bwmon_intr_thread_locals m).up_mbps = e.peak / 1000 + 1 := by
    rw [hup]; omega
  refine ⟨?_, ?_, ?_, ?_, ⟨_, bwmon_intr_thread_writes m⟩⟩
  · rw [hup2, hcur]
  · rw [hup2, hcur]; omega
  · intro herr
    rw [hopp] at herr
    rw [hdown, hcur, herr]
    simp [IS_ERR, PTR_ERR]
  · intro hok
    rw [hopp] at hok
    rw [hdown, hcur]
    rcases dev_pm_opp_find_bw_floor_cases m.opp_table (e.peak - 1) with
      ⟨f, hf, hfle, hfloor⟩ | hfloor
    · rw [hfloor]
      have hflt := hu32 f hf
      have hmbps := hdistinct f hf e he (by omega)
      simp only [IS_ERR, Bool.false_and, Bool.false_eq_true, if_false]
      omega
    · rw [hfloor] at hok
      exact absurd rfl hok

/-- An instance of C7: table `[1000, 2000, 3000]` kbps, sample of 2 mbps. -/
theorem bwmon_intr_thread_hysteresis_witness :
    (bwmon_intr_thread_locals
      (idle ⟨4, 20, 7000, 0, 2, 0⟩ (fun _ => 0) [⟨1000⟩, ⟨2000⟩, ⟨3000⟩])).up_mbps =
      (bwmon_intr_thread
        (idle ⟨4, 20, 7000, 0, 2, 0⟩ (fun _ => 0) [⟨1000⟩, ⟨2000⟩, ⟨3000⟩])).2.bwmon.current_mbps
        + 1 ∧
    (bwmon_intr_thread_locals
      (idle ⟨4, 20, 7000, 0, 2, 0⟩ (fun _ => 0) [⟨1000⟩, ⟨2000⟩, ⟨3000⟩])).down_mbps <
      (bwmon_intr_thread
        (idle ⟨4, 20, 7000, 0, 2, 0⟩ (fun _ => 0) [⟨1000⟩, ⟨2000⟩, ⟨3000⟩])).2.bwmon.current_mbps :=
  ⟨(bwmon_intr_thread_hysteresis
      (idle ⟨4, 20, 7000, 0, 2, 0⟩ (fun _ => 0) [⟨1000⟩, ⟨2000⟩, ⟨3000⟩])
      (by decide) (by decide) (by decide) (by decide)).1,
   (bwmon_intr_thread_hysteresis
      (idle ⟨4, 20, 7000, 0, 2, 0⟩ (fun _ => 0) [⟨1000⟩, ⟨2000⟩, ⟨3000⟩])
      (by decide) (by decide) (by decide) (by decide)).2.2.2.1 (by decide)⟩

/-- C8: for every non-empty sorted operating-point table and every target
sampled by the fast handler whose bandwidth (`target_mbps * 1000` kbps) is above
every entry of the table, the ceiling lookup of `bwmon_intr_thread` reports
`-ERANGE`, the floor lookup is used instead, the operating point handed to
`dev_pm_opp_set_opp` is the table's maximum entry, and after the pass the
committed bandwidth `current_mbps` is that entry's bandwidth in mbps.  (The
commit itself is skipped when `current_mbps` already had that value.) -/
theorem bwmon_intr_thread_clamps_to_max (m0 : Machine)
    (hstatus : (readl m0 BWMON_IRQ_STATUS).1 ≠ 0)
    (hne : m0.opp_table ≠ [])
    (hsorted : m0.opp_table.Pairwise (fun a b => a.peak ≤ b.peak))
    (hu32 : ∀ e ∈ m0.opp_table, e.peak < 2 ^ 32)
    (habove : ∀ e ∈ m0.opp_table, e.peak < (bwmon_intr m0).2.bwmon.target_mbps * 1000) :
    (bwmon_intr_thread_locals (bwmon_intr m0).2).ceil_opp = opp_ptr.err (-ERANGE) ∧
    ∃ top ∈ m0.opp_table, (∀ e ∈ m0.opp_table, e.peak ≤ top.peak) ∧
      (bwmon_intr_thread_locals (bwmon_intr m0).2).target_opp = opp_ptr.ok top ∧
      (bwmon_intr_thread (bwmon_intr m0).2).2.bwmon.current_mbps = top.peak / 1000 ∧
      (bwmon_intr_thread (bwmon_intr m0).2).2.set_opp_calls =
        (if top.peak / 1000 = m0.bwmon.current_mbps then m0.set_opp_calls
         else m0.set_opp_calls ++ [opp_ptr.ok top]) := by
  obtain ⟨htable, hcalls, hcur⟩ := bwmon_intr_frame m0
  have hbound := bwmon_intr_target_lt m0 hstatus
  have hnowrap : ((bwmon_intr m0).2.bwmon.target_mbps * 1000) % 2 ^ 32 =
      (bwmon_intr m0).2.bwmon.target_mbps * 1000 := by omega
  have hne2 : (bwmon_intr m0).2.opp_table ≠ [] := by rw [htable]; exact hne
  have habove2 : ∀ e ∈ (bwmon_intr m0).2.opp_table,
      e.peak < ((bwmon_intr m0).2.bwmon.target_mbps * 1000) % 2 ^ 32 := by
    rw [htable, hnowrap]; exact habove
  obtain ⟨hceil, hfound⟩ := find_target_opp_above _ _ hne2 habove2
  obtain ⟨htopp, htarget, _, _, _⟩ :=
    bwmon_intr_thread_locals_of_found (bwmon_intr m0).2 _ hfound
  have hmem : (bwmon_intr m0).2.opp_table.getLast hne2 ∈ m0.opp_table := by
    rw [← htable]
    exact List.getLast_mem hne2
  have hmax : ∀ e ∈ m0.opp_table, e.peak ≤ ((bwmon_intr m0).2.opp_table.getLast hne2).peak := by
    intro e he
    apply sorted_le_getLast _ hne2
    · rw [htable]; exact hsorted
    · rw [htable]; exact he
  have hfit : ((bwmon_intr m0).2.opp_table.getLast hne2).peak / 1000 % 2 ^ 32 =
      ((bwmon_intr m0).2.opp_table.getLast hne2).peak / 1000 := by
    have := hu32 _ hmem
    omega
  rw [hfit] at htarget
  refine ⟨hceil, _, hmem, hmax, htopp, ?_, ?_⟩
  · rw [bwmon_intr_thread_current, htarget]
  · rw [bwmon_intr_thread_set_opp_calls, htarget, htopp, hcur, hcalls]

/-- An instance of C8: zone 3 pending with raw peak counter 2000 samples
500000 mbps, far above the table `[1000, 1500]` kbps; the pass commits the
entry 1500. -/
theorem bwmon_intr_thread_clamps_to_max_witness :
    (bwmon_intr_thread_locals
      (bwmon_intr (idle ⟨4, 20, 7000, 0, 0, 0⟩ (regs_with 0x80 3 2000) [⟨1000⟩, ⟨1500⟩])).2).ceil_opp
      = opp_ptr.err (-ERANGE) ∧
    ∃ top ∈ (idle ⟨4, 20, 7000, 0, 0, 0⟩ (regs_with 0x80 3 2000) [⟨1000⟩, ⟨1500⟩]).opp_table,
      (∀ e ∈ (idle ⟨4, 20, 7000, 0, 0, 0⟩ (regs_with 0x80 3 2000) [⟨1000⟩, ⟨1500⟩]).opp_table,
        e.peak ≤ top.peak) ∧
      (bwmon_intr_thread_locals
        (bwmon_intr (idle ⟨4, 20, 7000, 0, 0, 0⟩ (regs_with 0x80 3 2000)
          [⟨1000⟩, ⟨1500⟩])).2).target_opp = opp_ptr.ok top ∧
      (bwmon_intr_thread
        (bwmon_intr (idle ⟨4, 20, 7000, 0, 0, 0⟩ (regs_with 0x80 3 2000)
          [⟨1000⟩, ⟨1500⟩])).2).2.bwmon.current_mbps = top.peak / 1000 ∧
      (bwmon_intr_thread
        (bwmon_intr (idle ⟨4, 20, 7000, 0, 0, 0⟩ (regs_with 0x80 3 2000)
          [⟨1000⟩, ⟨1500⟩])).2).2.set_opp_calls =
        (if top.peak / 1000 =
            (idle ⟨4, 20, 7000, 0, 0, 0⟩ (regs_with 0x80 3 2000)
              [⟨1000⟩, ⟨1500⟩]).bwmon.current_mbps
         then (idle ⟨4, 20, 7000, 0, 0, 0⟩ (regs_with 0x80 3 2000)
              [⟨1000⟩, ⟨1500⟩]).set_opp_calls
         else (idle ⟨4, 20, 7000, 0, 0, 0⟩ (regs_with 0x80 3 2000)
              [⟨1000⟩, ⟨1500⟩]).set_opp_calls ++ [opp_ptr.ok top]) :=
  bwmon_intr_thread_clamps_to_max
    (idle ⟨4, 20, 7000, 0, 0, 0⟩ (regs_with 0x80 3 2000) [⟨1000⟩, ⟨1500⟩])
    (by decide) (by decide) (by decide) (by decide) (by decide)

/-- C9: idempotence.  For every monitor state, sampled bandwidth `t` and
operating-point table, running `bwmon_intr_thread` twice with `target_mbps` set
to `t` before each run commits the operating point at most once: the second run
adds nothing to the log of `dev_pm_opp_set_opp` calls and leaves `current_mbps`
unchanged, and the first run adds at most one call. -/
theorem bwmon_intr_thread_idempotent (m : Machine) (t : Nat) :
    (bwmon_intr_thread (with_target (bwmon_intr_thread (with_target m t)).2 t)).2.set_opp_calls =
      (bwmon_intr_thread (with_target m t)).2.set_opp_calls ∧
    (bwmon_intr_thread
        (with_target (bwmon_intr_thread (with_target m t)).2 t)).2.bwmon.current_mbps =
      (bwmon_intr_thread (with_target m t)).2.bwmon.current_mbps ∧
    ((bwmon_intr_thread (with_target m t)).2.set_opp_calls = m.set_opp_calls ∨
      ∃ p, (bwmon_intr_thread (with_target m t)).2.set_opp_calls = m.set_opp_calls ++ [p]) := by
  have htable := (bwmon_intr_thread_frame (with_target m t)).1
  have hcur := bwmon_intr_thread_current (with_target m t)
  have hsame : (bwmon_intr_thread_locals
      (with_target (bwmon_intr_thread (with_target m t)).2 t)).target_mbps =
      (bwmon_intr_thread_locals (with_target m t)).target_mbps := by
    show ((find_target_opp (bwmon_intr_thread (with_target m t)).2.opp_table
        ((t * 1000) % 2 ^ 32)).2 / 1000) % 2 ^ 32 =
      ((find_target_opp (with_target m t).opp_table ((t * 1000) % 2 ^ 32)).2 / 1000) % 2 ^ 32
    rw [htable]
  have hcur2 : (with_target (bwmon_intr_thread (with_target m t)).2 t).bwmon.current_mbps =
      (bwmon_intr_thread_locals (with_target m t)).target_mbps := hcur
  refine ⟨?_, ?_, ?_⟩
  · rw [bwmon_intr_thread_set_opp_calls, hsame, hcur2, if_pos rfl]
    rfl
  · rw [bwmon_intr_thread_current, hsame, hcur]
  · rw [bwmon_intr_thread_set_opp_calls]
    split
    · exact Or.inl rfl
    · exact Or.inr ⟨_, rfl⟩

/-- C10: on every pass of `bwmon_intr_thread` over a non-empty table (entries
within the 32-bit bandwidth field), the first step finds an entry `e` of the
table; `dev_pm_opp_set_opp` is called, exactly once and with `e`, if and only
if the table-resolved `target_mbps` differs from `current_mbps` at entry; in
both cases `current_mbps` equals `target_mbps` when the pass returns, and
`target_mbps` equals the bandwidth of `e` divided by 1000. -/
theorem bwmon_intr_thread_commit (m : Machine)
    (hne : m.opp_table ≠ [])
    (hu32 : ∀ e ∈ m.opp_table, e.peak < 2 ^ 32) :
    ∃ e ∈ m.opp_table,
      (bwmon_intr_thread_locals m).target_opp = opp_ptr.ok e ∧
      (bwmon_intr_thread m).2.bwmon.target_mbps = e.peak / 1000 ∧
      (bwmon_intr_thread m).2.bwmon.current_mbps = (bwmon_intr_thread m).2.bwmon.target_mbps ∧
      ((bwmon_intr_thread m).2.bwmon.target_mbps ≠ m.bwmon.current_mbps →
        (bwmon_intr_thread m).2.set_opp_calls = m.set_opp_calls ++ [opp_ptr.ok e]) ∧
      ((bwmon_intr_thread m).2.bwmon.target_mbps = m.bwmon.current_mbps →
        (bwmon_intr_thread m).2.set_opp_calls = m.set_opp_calls) := by
  obtain ⟨e, he, hfound⟩ :=
    find_target_opp_ok m.opp_table ((m.bwmon.target_mbps * 1000) % 2 ^ 32) hne
  obtain ⟨htopp, htarget, _, _, _⟩ := bwmon_intr_thread_locals_of_found m e hfound
  have hfit : e.peak / 1000 % 2 ^ 32 = e.peak / 1000 := by
    have := hu32 e he
    omega
  rw [hfit] at htarget
  refine ⟨e, he, htopp, ?_, ?_, ?_, ?_⟩
  · rw [bwmon_intr_thread_target, htarget]
  · rw [bwmon_intr_thread_current, bwmon_intr_thread_target]
  · intro hdiff
    rw [bwmon_intr_thread_target] at hdiff
    rw [bwmon_intr_thread_set_opp_calls, if_neg hdiff, htopp]
  · intro hsame
    rw [bwmon_intr_thread_target] at hsame
    rw [bwmon_intr_thread_set_opp_calls, if_pos hsame]

/-- An instance of C10: table `[1000, 2000, 3000]` kbps, sample of 2 mbps while
3 mbps is committed; the pass commits the entry 2000. -/
theorem bwmon_intr_thread_commit_witness :
    ∃ e ∈ (idle ⟨4, 20, 7000, 0, 2, 3⟩ (fun _ => 0) [⟨1000⟩, ⟨2000⟩, ⟨3000⟩]).opp_table,
      (bwmon_intr_thread_locals
        (idle ⟨4, 20, 7000, 0, 2, 3⟩ (fun _ => 0) [⟨1000⟩, ⟨2000⟩, ⟨3000⟩])).target_opp =
          opp_ptr.ok e ∧
      (bwmon_intr_thread
        (idle ⟨4, 20, 7000, 0, 2, 3⟩ (fun _ => 0) [⟨1000⟩, ⟨2000⟩, ⟨3000⟩])).2.bwmon.target_mbps =
          e.peak / 1000 ∧
      (bwmon_intr_thread
        (idle ⟨4, 20, 7000, 0, 2, 3⟩ (fun _ => 0) [⟨1000⟩, ⟨2000⟩, ⟨3000⟩])).2.bwmon.current_mbps =
        (bwmon_intr_thread
          (idle ⟨4, 20, 7000, 0, 2, 3⟩ (fun _ => 0) [⟨1000⟩, ⟨2000⟩, ⟨3000⟩])).2.bwmon.target_mbps ∧
      ((bwmon_intr_thread
          (idle ⟨4, 20, 7000, 0, 2, 3⟩ (fun _ => 0) [⟨1000⟩, ⟨2000⟩, ⟨3000⟩])).2.bwmon.target_mbps ≠
          (idle ⟨4, 20, 7000, 0, 2, 3⟩ (fun _ => 0) [⟨1000⟩, ⟨2000⟩, ⟨3000⟩]).bwmon.current_mbps →
        (bwmon_intr_thread
          (idle ⟨4, 20, 7000, 0, 2, 3⟩ (fun _ => 0) [⟨1000⟩, ⟨2000⟩, ⟨3000⟩])).2.set_opp_calls =
          (idle ⟨4, 20, 7000, 0, 2, 3⟩ (fun _ => 0) [⟨1000⟩, ⟨2000⟩, ⟨3000⟩]).set_opp_calls ++
            [opp_ptr.ok e]) ∧
      ((bwmon_intr_thread
          (idle ⟨4, 20, 7000, 0, 2, 3⟩ (fun _ => 0) [⟨1000⟩, ⟨2000⟩, ⟨3000⟩])).2.bwmon.target_mbps =
          (idle ⟨4, 20, 7000, 0, 2, 3⟩ (fun _ => 0) [⟨1000⟩, ⟨2000⟩, ⟨3000⟩]).bwmon.current_mbps →
        (bwmon_intr_thread
          (idle ⟨4, 20, 7000, 0, 2, 3⟩ (fun _ => 0) [⟨1000⟩, ⟨2000⟩, ⟨3000⟩])).2.set_opp_calls =
          (idle ⟨4, 20, 7000, 0, 2, 3⟩ (fun _ => 0) [⟨1000⟩, ⟨2000⟩, ⟨3000⟩]).set_opp_calls) :=
  bwmon_intr_thread_commit
    (idle ⟨4, 20, 7000, 0, 2, 3⟩ (fun _ => 0) [⟨1000⟩, ⟨2000⟩, ⟨3000⟩]) (by decide) (by decide)

/-! ## Threaded handler and configured bounds (C11) -/

/-- C11, as stated, fails: with `min_bw_mbps = 100` and the table
`[1000, 2000]` kbps, a sample of 1 mbps resolves to the entry 1000 and the pass
returns with `target_mbps = 1`, below `min_bw_mbps`. -/
theorem bwmon_intr_thread_target_below_min :
    (idle ⟨4, 20, 7000, 100, 1, 0⟩ (fun _ => 0) [⟨1000⟩, ⟨2000⟩]).opp_table ≠ [] ∧
    (bwmon_intr_thread
      (idle ⟨4, 20, 7000, 100, 1, 0⟩ (fun _ => 0) [⟨1000⟩, ⟨2000⟩])).2.bwmon.target_mbps = 1 ∧
    ¬ ((bwmon_intr_thread
        (idle ⟨4, 20, 7000, 100, 1, 0⟩ (fun _ => 0) [⟨1000⟩, ⟨2000⟩])).2.bwmon.min_bw_mbps ≤
      (bwmon_intr_thread
        (idle ⟨4, 20, 7000, 100, 1, 0⟩ (fun _ => 0) [⟨1000⟩, ⟨2000⟩])).2.bwmon.target_mbps) := by
  decide

/-- C11 (amended): for every monitor state, every sampled bandwidth and every
non-empty operating-point table all of whose entries (within the 32-bit
bandwidth field) carry at least `min_bw_mbps` in whole mbps,
`min_bw_mbps <= target_mbps` holds when `bwmon_intr_thread` returns: the
returned `target_mbps` is the bandwidth of a table entry, divided by 1000. -/
theorem bwmon_intr_thread_target_ge_min (m : Machine)
    (hne : m.opp_table ≠ [])
    (hu32 : ∀ e ∈ m.opp_table, e.peak < 2 ^ 32)
    (hmin : ∀ e ∈ m.opp_table, m.bwmon.min_bw_mbps ≤ e.peak / 1000) :
    (bwmon_intr_thread m).2.bwmon.min_bw_mbps ≤ (bwmon_intr_thread m).2.bwmon.target_mbps ∧
    ∃ e ∈ m.opp_table, (bwmon_intr_thread m).2.bwmon.target_mbps = e.peak / 1000 := by
  obtain ⟨e, he, hfound⟩ :=
    find_target_opp_ok m.opp_table ((m.bwmon.target_mbps * 1000) % 2 ^ 32) hne
  obtain ⟨_, htarget, _, _, _⟩ := bwmon_intr_thread_locals_of_found m e hfound
  have hfit : e.peak / 1000 % 2 ^ 32 = e.peak / 1000 := by
    have := hu32 e he
    omega
  rw [hfit] at htarget
  have ht : (bwmon_intr_thread m).2.bwmon.target_mbps = e.peak / 1000 := by
    rw [bwmon_intr_thread_target, htarget]
  refine ⟨?_, e, he, ht⟩
  rw [(bwmon_intr_thread_frame m).2.2.1, ht]
  exact hmin e he

/-- An instance of C11: `min_bw_mbps = 1`, table `[1000, 2000]` kbps, sample of
1 mbps. -/
theorem bwmon_intr_thread_target_ge_min_witness :
    (bwmon_intr_thread
      (idle ⟨4, 20, 7000, 1, 1, 0⟩ (fun _ => 0) [⟨1000⟩, ⟨2000⟩])).2.bwmon.min_bw_mbps ≤
    (bwmon_intr_thread
      (idle ⟨4, 20, 7000, 1, 1, 0⟩ (fun _ => 0) [⟨1000⟩, ⟨2000⟩])).2.bwmon.target_mbps :=
  (bwmon_intr_thread_target_ge_min
    (idle ⟨4, 20, 7000, 1, 1, 0⟩ (fun _ => 0) [⟨1000⟩, ⟨2000⟩])
    (by decide) (by decide) (by decide)).1

/-! ## Bring-up (C12, C13, C15) -/

/-- The value `bwmon_start` packs for the threshold-count register. -/
theorem thres_count_packed (z1 z3 : Nat) (h1 : z1 < 2 ^ 8) :
    z3 <<< 24 ||| 0xFF <<< 16 ||| z1 <<< 8 ||| 0xFF =
      z3 * 2 ^ 24 + 0xFF * 2 ^ 16 + z1 * 2 ^ 8 + 0xFF := by
  have e0 : (0xFF <<< 16 : Nat) = 0xFF * 2 ^ 16 := by decide
  have e1 : z3 <<< 24 ||| 0xFF <<< 16 = z3 * 2 ^ 24 + 0xFF * 2 ^ 16 := by
    rw [Nat.shiftLeft_eq, Nat.mul_comm z3, e0]
    exact (Nat.mul_add_lt_is_or (by decide) z3).symm
  have e2 : z3 * 2 ^ 24 + 0xFF * 2 ^ 16 = 2 ^ 16 * (z3 * 2 ^ 8 + 0xFF) := by omega
  have e3 : 2 ^ 16 * (z3 * 2 ^ 8 + 0xFF) ||| z1 <<< 8 =
      2 ^ 16 * (z3 * 2 ^ 8 + 0xFF) + z1 * 2 ^ 8 := by
    rw [Nat.shiftLeft_eq, Nat.mul_add_lt_is_or (by omega) (z3 * 2 ^ 8 + 0xFF)]
  have e4 : 2 ^ 16 * (z3 * 2 ^ 8 + 0xFF) + z1 * 2 ^ 8 =
      2 ^ 8 * ((z3 * 2 ^ 8 + 0xFF) * 2 ^ 8 + z1) := by omega
  have e5 : 2 ^ 8 * ((z3 * 2 ^ 8 + 0xFF) * 2 ^ 8 + z1) ||| 0xFF =
      2 ^ 8 * ((z3 * 2 ^ 8 + 0xFF) * 2 ^ 8 + z1) + 0xFF := by
    rw [Nat.mul_add_lt_is_or (by decide) ((z3 * 2 ^ 8 + 0xFF) * 2 ^ 8 + z1)]
  rw [e1, e2, e3, e4, e5]

/-- The register writes of `bwmon_start`, in order. -/
theorem bwmon_start_writes (m : Machine) (data : icc_bwmon_data) :
    (bwmon_start m data).writes =
      m.writes ++
        [(BWMON_IRQ_CLEAR, 0xa0), (BWMON_GLOBAL_IRQ_CLEAR, 1), (BWMON_CLEAR, 1),
         (BWMON_SAMPLE_WINDOW,
            mult_frac 32 (m.bwmon.sample_ms % 2 ^ 32) HW_TIMER_HZ MSEC_PER_SEC % 2 ^ 32),
         (BWMON_THRESHOLD_HIGH,
            mult_frac 32 (data.default_highbw_mbps % 2 ^ 32) m.bwmon.sample_ms
              MSEC_PER_SEC % 2 ^ 32),
         (BWMON_THRESHOLD_MED,
            mult_frac 32 (data.default_medbw_mbps % 2 ^ 32) m.bwmon.sample_ms
              MSEC_PER_SEC % 2 ^ 32),
         (BWMON_THRESHOLD_LOW,
            mult_frac 32 (data.default_lowbw_mbps % 2 ^ 32) m.bwmon.sample_ms
              MSEC_PER_SEC % 2 ^ 32),
         (BWMON_THRESHOLD_COUNT,
            ((data.zone3_thres_count % 2 ^ 8) <<< 24 ||| 0xFF <<< 16 |||
              (data.zone1_thres_count % 2 ^ 8) <<< 8 ||| 0xFF) % 2 ^ 32 % 2 ^ 32),
         (BWMON_ZONE_ACTIONS, 0x95250901),
         (BWMON_IRQ_CLEAR, 0xa0), (BWMON_GLOBAL_IRQ_CLEAR, 1), (BWMON_CLEAR, 1),
         (BWMON_GLOBAL_IRQ_ENABLE, 1), (BWMON_IRQ_ENABLE, 0xa0), (BWMON_ENABLE, 1)] := by
  unfold bwmon_start
  simp only [bwmon_enable, bwmon_clear, bwmon_set_threshold, writel, List.append_assoc,
    List.singleton_append, List.cons_append, List.nil_append]
  rfl

/-- The register contents `bwmon_start` leaves in the sample-window and
threshold-count registers. -/
theorem bwmon_start_regs (m : Machine) (data : icc_bwmon_data) :
    (bwmon_start m data).regs BWMON_SAMPLE_WINDOW =
      mult_frac 32 (m.bwmon.sample_ms % 2 ^ 32) HW_TIMER_HZ MSEC_PER_SEC % 2 ^ 32 ∧
    (bwmon_start m data).regs BWMON_THRESHOLD_COUNT =
      ((data.zone3_thres_count % 2 ^ 8) <<< 24 ||| 0xFF <<< 16 |||
        (data.zone1_thres_count % 2 ^ 8) <<< 8 ||| 0xFF) % 2 ^ 32 % 2 ^ 32 := by
  unfold bwmon_start
  simp only [bwmon_enable, bwmon_clear, bwmon_set_threshold, writel]
  constructor <;> rfl

/-- The window `bwmon_start` computes, when nothing wraps. -/
theorem window_exact (sample_ms : Nat)
    (hrem : sample_ms % 1000 * 19200000 < 2 ^ 32) (hfit : sample_ms * 19200 < 2 ^ 32) :
    mult_frac 32 (sample_ms % 2 ^ 32) HW_TIMER_HZ MSEC_PER_SEC % 2 ^ 32 = sample_ms * 19200 := by
  have hlt : sample_ms < 2 ^ 32 := by omega
  have hdiv : sample_ms * 19200000 / 1000 = sample_ms * 19200 := by omega
  rw [Nat.mod_eq_of_lt hlt]
  have hexact : mult_frac 32 sample_ms HW_TIMER_HZ MSEC_PER_SEC = sample_ms * 19200 := by
    rw [← hdiv]
    exact mult_frac_exact 32 sample_ms 19200000 1000 (by decide) hrem (by omega)
  rw [hexact]
  exact Nat.mod_eq_of_lt hfit

/-- C12, as stated, fails: with `sample_ms = 1000000` the tick count
`sample_ms * 19200000 / 1000 = 19200000000` exceeds the 32-bit window register,
which is left at `2020130816`; and with `sample_ms = 224` the `unsigned int`
product `224 * 19200000` inside `mult_frac` already wraps, so that the register
is left at `5832` instead of `4300800`. -/
theorem bwmon_start_window_wraps :
    ((bwmon_start (idle ⟨1000000, 20, 0, 0, 0, 0⟩ (fun _ => 0) []) sdm845_bwmon_data).regs
        BWMON_SAMPLE_WINDOW = 2020130816 ∧
      (bwmon_start (idle ⟨1000000, 20, 0, 0, 0, 0⟩ (fun _ => 0) []) sdm845_bwmon_data).regs
        BWMON_SAMPLE_WINDOW ≠ 1000000 * 19200000 / 1000) ∧
    ((bwmon_start (idle ⟨224, 20, 0, 0, 0, 0⟩ (fun _ => 0) []) sdm845_bwmon_data).regs
        BWMON_SAMPLE_WINDOW = 5832 ∧
      (bwmon_start (idle ⟨224, 20, 0, 0, 0, 0⟩ (fun _ => 0) []) sdm845_bwmon_data).regs
        BWMON_SAMPLE_WINDOW ≠ 224 * 19200000 / 1000) := by
  decide

/-- C12 (amended): for every `sample_ms` whose tick count `sample_ms * 19200`
fits 32 bits and whose remainder product `(sample_ms % 1000) * 19200000` fits
32 bits as well, `bwmon_start` writes
`window_ticks = sample_ms * 19200000 / 1000` (`= sample_ms * 19200`) to the
sample-window register `0x2A8`, as its fourth write, right after the three
clear writes. -/
theorem bwmon_start_window (m : Machine) (data : icc_bwmon_data)
    (hrem : m.bwmon.sample_ms % 1000 * 19200000 < 2 ^ 32)
    (hfit : m.bwmon.sample_ms * 19200 < 2 ^ 32) :
    (bwmon_start m data).regs BWMON_SAMPLE_WINDOW = m.bwmon.sample_ms * 19200000 / 1000 ∧
    m.bwmon.sample_ms * 19200000 / 1000 = m.bwmon.sample_ms * 19200 ∧
    BWMON_SAMPLE_WINDOW = 0x2a8 ∧
    ∃ rest, (bwmon_start m data).writes =
      m.writes ++
        (BWMON_IRQ_CLEAR, 0xa0) :: (BWMON_GLOBAL_IRQ_CLEAR, 1) :: (BWMON_CLEAR, 1) ::
        (BWMON_SAMPLE_WINDOW, m.bwmon.sample_ms * 19200) :: rest := by
  have hdiv : m.bwmon.sample_ms * 19200000 / 1000 = m.bwmon.sample_ms * 19200 := by omega
  have hw := window_exact m.bwmon.sample_ms hrem hfit
  refine ⟨?_, hdiv, rfl, ?_⟩
  · rw [(bwmon_start_regs m data).1, hw, hdiv]
  · rw [bwmon_start_writes, hw]
    exact ⟨_, rfl⟩

/-- The scenario of C12: `sample_ms = 4` gives a window of `76800` ticks. -/
theorem bwmon_start_window_witness :
    (bwmon_start (idle ⟨4, 20, 0, 0, 0, 0⟩ (fun _ => 0) []) sdm845_bwmon_data).regs
      BWMON_SAMPLE_WINDOW = 76800 :=
  (bwmon_start_window (idle ⟨4, 20, 0, 0, 0, 0⟩ (fun _ => 0) []) sdm845_bwmon_data
    (by decide) (by decide)).1

/-- C13: for every pair of 8-bit tolerances `zone1` and `zone3`, `bwmon_start`
writes to the threshold-count register `0x2BC` the 32-bit value
`zone3<<24 | 0xFF<<16 | zone1<<8 | 0xFF`, whose byte 0 and byte 2 are `0xFF`,
whose byte 1 is `zone1` and whose byte 3 is `zone3`. -/
theorem bwmon_start_thres_count (m : Machine) (data : icc_bwmon_data)
    (h1 : data.zone1_thres_count < 2 ^ 8) (h3 : data.zone3_thres_count < 2 ^ 8) :
    (bwmon_start m data).regs BWMON_THRESHOLD_COUNT =
      (data.zone3_thres_count <<< 24 ||| 0xFF <<< 16 ||| data.zone1_thres_count <<< 8 |||
        0xFF) ∧
    BWMON_THRESHOLD_COUNT = 0x2bc ∧
    (BWMON_THRESHOLD_COUNT,
      data.zone3_thres_count <<< 24 ||| 0xFF <<< 16 ||| data.zone1_thres_count <<< 8 ||| 0xFF)
      ∈ (bwmon_start m data).writes ∧
    (data.zone3_thres_count <<< 24 ||| 0xFF <<< 16 ||| data.zone1_thres_count <<< 8 ||| 0xFF)
      < 2 ^ 32 ∧
    (data.zone3_thres_count <<< 24 ||| 0xFF <<< 16 ||| data.zone1_thres_count <<< 8 ||| 0xFF)
      % 2 ^ 8 = 0xFF ∧
    (data.zone3_thres_count <<< 24 ||| 0xFF <<< 16 ||| data.zone1_thres_count <<< 8 ||| 0xFF)
      >>> 8 % 2 ^ 8 = data.zone1_thres_count ∧
    (data.zone3_thres_count <<< 24 ||| 0xFF <<< 16 ||| data.zone1_thres_count <<< 8 ||| 0xFF)
      >>> 16 % 2 ^ 8 = 0xFF ∧
    (data.zone3_thres_count <<< 24 ||| 0xFF <<< 16 ||| data.zone1_thres_count <<< 8 ||| 0xFF)
      >>> 24 % 2 ^ 8 = data.zone3_thres_count := by
  have hpack := thres_count_packed data.zone1_thres_count data.zone3_thres_count h1
  have hlt : data.zone3_thres_count * 2 ^ 24 + 0xFF * 2 ^ 16 + data.zone1_thres_count * 2 ^ 8
      + 0xFF < 2 ^ 32 := by omega
  have hreg : (bwmon_start m data).regs BWMON_THRESHOLD_COUNT =
      (data.zone3_thres_count <<< 24 ||| 0xFF <<< 16 ||| data.zone1_thres_count <<< 8 |||
        0xFF) := by
    rw [(bwmon_start_regs m data).2, Nat.mod_eq_of_lt h1, Nat.mod_eq_of_lt h3, hpack,
      Nat.mod_eq_of_lt hlt, Nat.mod_eq_of_lt hlt]
  refine ⟨hreg, rfl, ?_, ?_, ?_, ?_, ?_, ?_⟩
  · rw [bwmon_start_writes, Nat.mod_eq_of_lt h1, Nat.mod_eq_of_lt h3, hpack,
      Nat.mod_eq_of_lt hlt, Nat.mod_eq_of_lt hlt]
    simp
  · rw [hpack]; exact hlt
  · rw [hpack]; omega
  · rw [hpack, Nat.shiftRight_eq_div_pow]; omega
  · rw [hpack, Nat.shiftRight_eq_div_pow]; omega
  · rw [hpack, Nat.shiftRight_eq_div_pow]; omega

/-- The scenario of C13: for `zone1 = 0x10`, `zone3 = 0x1` (the SDM845
configuration) the threshold-count register holds `0x01FF10FF`. -/
theorem bwmon_start_thres_count_witness :
    (bwmon_start (idle ⟨4, 20, 0, 0, 0, 0⟩ (fun _ => 0) []) sdm845_bwmon_data).regs
      BWMON_THRESHOLD_COUNT = 0x01FF10FF :=
  (bwmon_start_thres_count (idle ⟨4, 20, 0, 0, 0, 0⟩ (fun _ => 0) []) sdm845_bwmon_data
    (by decide) (by decide)).1

/-- A probe that returns `0` went all the way: it configured the instance from
the match data and the two properties, disabled the monitor and started it. -/
theorem bwmon_probe_ok (env : probe_env) (data : icc_bwmon_data)
    (hdata : env.data = some data) (hret : (bwmon_probe env).1 = 0) :
    (bwmon_probe env).2 =
      bwmon_start
        (bwmon_disable
          (idle ⟨data.sample_ms % 2 ^ 32, order_base_2 SZ_1M, env.max_bw % 2 ^ 32,
            env.min_bw % 2 ^ 32, 0, 0⟩ env.regs env.opp_table))
        data := by
  unfold bwmon_probe at hret ⊢
  simp only [hdata] at hret ⊢
  split at hret
  · simp [ENOMEM] at hret
  · rw [if_neg (by assumption)]
    split at hret
    · simp [EINVAL] at hret
    · rw [if_neg (by assumption)]
      split at hret
      · omega
      · rw [if_neg (by assumption)]
        split at hret
        · contradiction
        · rw [if_neg (by assumption)]
          split at hret
          · contradiction
          · rw [if_neg (by assumption)]
            split at hret
            · contradiction
            · rw [if_neg (by assumption)]
              split at hret
              · omega
              · rw [if_neg (by assumption)]
                rfl

/-- The register writes of `bwmon_disable`, in order. -/
theorem bwmon_disable_writes (m : Machine) :
    (bwmon_disable m).writes =
      m.writes ++ [(BWMON_GLOBAL_IRQ_ENABLE, 0), (BWMON_IRQ_ENABLE, 0), (BWMON_ENABLE, 0)] := by
  simp only [bwmon_disable, writel, List.append_assoc, List.singleton_append, List.cons_append,
    List.nil_append]
  rfl

/-- C15: for every configuration, the register-write trace of a bring-up that
completes (`bwmon_probe` returns `0`: `bwmon_disable`, then `bwmon_start`) is
exactly, in order: disable (`0xC<-0`, `0x10C<-0`, `0x2A0<-0`), clear
(`0x108<-0xA0`, `0x8<-1`, `0x2A4<-1`), window (`0x2A8`), high, med and low
thresholds (`0x2AC`, `0x2B0`, `0x2B4`, from the default high, med and low
bandwidths), threshold counts (`0x2BC`), zone actions (`0x2B8<-0x95250901`),
clear again, then enable with the mask zone1|zone3 (`0xC<-1`, `0x10C<-0xA0`,
`0x2A0<-1`). -/
theorem bwmon_probe_trace (env : probe_env) (data : icc_bwmon_data)
    (hdata : env.data = some data) (hret : (bwmon_probe env).1 = 0) :
    (bwmon_probe env).2.writes =
      [(BWMON_GLOBAL_IRQ_ENABLE, 0), (BWMON_IRQ_ENABLE, 0), (BWMON_ENABLE, 0),
       (BWMON_IRQ_CLEAR, 0xa0), (BWMON_GLOBAL_IRQ_CLEAR, 1), (BWMON_CLEAR, 1),
       (BWMON_SAMPLE_WINDOW,
          mult_frac 32 (data.sample_ms % 2 ^ 32 % 2 ^ 32) HW_TIMER_HZ MSEC_PER_SEC % 2 ^ 32),
       (BWMON_THRESHOLD_HIGH,
          mult_frac 32 (data.default_highbw_mbps % 2 ^ 32) (data.sample_ms % 2 ^ 32)
            MSEC_PER_SEC % 2 ^ 32),
       (BWMON_THRESHOLD_MED,
          mult_frac 32 (data.default_medbw_mbps % 2 ^ 32) (data.sample_ms % 2 ^ 32)
            MSEC_PER_SEC % 2 ^ 32),
       (BWMON_THRESHOLD_LOW,
          mult_frac 32 (data.default_lowbw_mbps % 2 ^ 32) (data.sample_ms % 2 ^ 32)
            MSEC_PER_SEC % 2 ^ 32),
       (BWMON_THRESHOLD_COUNT,
          ((data.zone3_thres_count % 2 ^ 8) <<< 24 ||| 0xFF <<< 16 |||
            (data.zone1_thres_count % 2 ^ 8) <<< 8 ||| 0xFF) % 2 ^ 32 % 2 ^ 32),
       (BWMON_ZONE_ACTIONS, 0x95250901),
       (BWMON_IRQ_CLEAR, 0xa0), (BWMON_GLOBAL_IRQ_CLEAR, 1), (BWMON_CLEAR, 1),
       (BWMON_GLOBAL_IRQ_ENABLE, 1), (BWMON_IRQ_ENABLE, 0xa0), (BWMON_ENABLE, 1)] ∧
    (bwmon_probe env).2.writes.map Prod.fst =
      [0xc, 0x10c, 0x2a0, 0x108, 0x8, 0x2a4, 0x2a8, 0x2ac, 0x2b0, 0x2b4, 0x2bc, 0x2b8,
       0x108, 0x8, 0x2a4, 0xc, 0x10c, 0x2a0] := by
  rw [bwmon_probe_ok env data hdata hret, bwmon_start_writes, bwmon_disable_writes]
  exact ⟨rfl, rfl⟩

/-- An instance of C15: the bring-up trace of the SDM845 configuration. -/
theorem bwmon_probe_trace_witness :
    (bwmon_probe sdm845_probe_env).2.writes =
      [(0xc, 0), (0x10c, 0), (0x2a0, 0), (0x108, 0xa0), (0x8, 1), (0x2a4, 1),
       (0x2a8, 76800), (0x2ac, 19), (0x2b0, 2), (0x2b4, 0), (0x2bc, 0x01FF10FF),
       (0x2b8, 0x95250901), (0x108, 0xa0), (0x8, 1), (0x2a4, 1),
       (0xc, 1), (0x10c, 0xa0), (0x2a0, 1)] :=
  (bwmon_probe_trace sdm845_probe_env sdm845_bwmon_data rfl (by decide)).1.trans (by decide)

/-! ## Frame of the fast handler (C14) -/

/-- The register writes of `bwmon_intr` on a non-zero status. -/
theorem bwmon_intr_writes (m : Machine) (h : (readl m BWMON_IRQ_STATUS).1 ≠ 0) :
    (bwmon_intr m).2.writes = (bwmon_disable m).writes := by
  unfold bwmon_intr
  simp only [if_neg h]
  rfl

/-- The instance `bwmon_intr` leaves on a non-zero status: the one at entry,
but for `target_mbps`. -/
theorem bwmon_intr_bwmon (m : Machine) (h : (readl m BWMON_IRQ_STATUS).1 ≠ 0) :
    (bwmon_intr m).2.bwmon =
      { m.bwmon with target_mbps := (bwmon_intr m).2.bwmon.target_mbps } := by
  unfold bwmon_intr
  simp only [if_neg h]
  rfl

/-- The function `bwmon_probe` never stores into `current_mbps`: the field keeps
the `0` of the allocation. -/
theorem bwmon_probe_current (env : probe_env) :
    (bwmon_probe env).2.bwmon.current_mbps = 0 := by
  unfold bwmon_probe
  simp only []
  split
  · rfl
  · split
    · rfl
    · repeat' split
      all_goals rfl

/-- The register programming functions leave the monitor instance alone. -/
theorem register_programming_frame (m : Machine) :
    (bwmon_clear m).bwmon = m.bwmon ∧ (bwmon_disable m).bwmon = m.bwmon ∧
    (∀ irq_enable, (bwmon_enable m irq_enable).bwmon = m.bwmon) ∧
    (∀ reg mbps, (bwmon_set_threshold m reg mbps).bwmon = m.bwmon) ∧
    (∀ data, (bwmon_start m data).bwmon = m.bwmon) := by
  refine ⟨rfl, rfl, fun _ => rfl, fun _ _ => rfl, ?_⟩
  intro data
  simp only [bwmon_start, bwmon_enable, bwmon_clear, bwmon_set_threshold, writel]

/-- C14: for every monitor state with a non-zero IRQ status, `bwmon_intr`
performs exactly the register writes of `bwmon_disable` and no other write,
changes no instance field other than `target_mbps` (in particular
`current_mbps`, the committed bandwidth, is unchanged), and returns
`IRQ_WAKE_THREAD`; `current_mbps` is written only by `bwmon_intr_thread`: the
register programming functions and the probe leave it alone. -/
theorem bwmon_intr_frame_effect (m : Machine) (hstatus : (readl m BWMON_IRQ_STATUS).1 ≠ 0) :
    (bwmon_intr m).1 = irqreturn_t.IRQ_WAKE_THREAD ∧
    (bwmon_intr m).2.writes = (bwmon_disable m).writes ∧
    (bwmon_intr m).2.writes =
      m.writes ++ [(BWMON_GLOBAL_IRQ_ENABLE, 0), (BWMON_IRQ_ENABLE, 0), (BWMON_ENABLE, 0)] ∧
    (bwmon_intr m).2.bwmon =
      { m.bwmon with target_mbps := (bwmon_intr m).2.bwmon.target_mbps } ∧
    (bwmon_intr m).2.bwmon.current_mbps = m.bwmon.current_mbps ∧
    (bwmon_intr m).2.set_opp_calls = m.set_opp_calls ∧
    (bwmon_intr m).2.opp_table = m.opp_table ∧
    ((bwmon_clear m).bwmon = m.bwmon ∧ (bwmon_disable m).bwmon = m.bwmon ∧
      (∀ irq_enable, (bwmon_enable m irq_enable).bwmon = m.bwmon) ∧
      (∀ reg mbps, (bwmon_set_threshold m reg mbps).bwmon = m.bwmon) ∧
      (∀ data, (bwmon_start m data).bwmon = m.bwmon) ∧
      (∀ env, (bwmon_probe env).2.bwmon.current_mbps = 0)) ∧
    (bwmon_intr_thread m).2.bwmon.current_mbps = (bwmon_intr_thread m).2.bwmon.target_mbps := by
  obtain ⟨htable, hcalls, hcur⟩ := bwmon_intr_frame m
  refine ⟨(bwmon_intr_target m hstatus).1, bwmon_intr_writes m hstatus, ?_,
    bwmon_intr_bwmon m hstatus, hcur, hcalls, htable,
    ⟨(register_programming_frame m).1, (register_programming_frame m).2.1,
      (register_programming_frame m).2.2.1, (register_programming_frame m).2.2.2.1,
      (register_programming_frame m).2.2.2.2, bwmon_probe_current⟩, ?_⟩
  · rw [bwmon_intr_writes m hstatus, bwmon_disable_writes]
  · rw [bwmon_intr_thread_current, bwmon_intr_thread_target]

/-- An instance of C14: zone 3 pending with raw peak counter 2000 while 3 mbps
is committed. -/
theorem bwmon_intr_frame_effect_witness :
    (bwmon_intr (idle ⟨4, 20, 7000, 100, 5, 3⟩ (regs_with 0x80 3 2000) [])).1 =
      irqreturn_t.IRQ_WAKE_THREAD ∧
    (bwmon_intr (idle ⟨4, 20, 7000, 100, 5, 3⟩ (regs_with 0x80 3 2000) [])).2.writes =
      (bwmon_disable (idle ⟨4, 20, 7000, 100, 5, 3⟩ (regs_with 0x80 3 2000) [])).writes :=
  ⟨(bwmon_intr_frame_effect (idle ⟨4, 20, 7000, 100, 5, 3⟩ (regs_with 0x80 3 2000) [])
      (by decide)).1,
   (bwmon_intr_frame_effect (idle ⟨4, 20, 7000, 100, 5, 3⟩ (regs_with 0x80 3 2000) [])
      (by decide)).2.1⟩

/-! ## Trace of the threaded handler (C16) -/

/-- The registers the threaded handler leaves: the low threshold untouched,
the three enable registers set. -/
theorem bwmon_intr_thread_regs (m : Machine) :
    (bwmon_intr_thread m).2.regs BWMON_THRESHOLD_LOW = m.regs BWMON_THRESHOLD_LOW ∧
    (bwmon_intr_thread m).2.regs BWMON_GLOBAL_IRQ_ENABLE = 1 ∧
    (bwmon_intr_thread m).2.regs BWMON_ENABLE = 1 := by
  unfold bwmon_intr_thread
  simp only [bwmon_enable, bwmon_clear, bwmon_set_threshold, writel]
  split <;> exact ⟨rfl, rfl, rfl⟩

/-- C16: for every monitor state and operating-point table, the register-write
trace of `bwmon_intr_thread` is exactly: high threshold (`0x2AC`) from
`up_mbps`, med threshold (`0x2B0`) from `down_mbps`, the three clear writes,
then global IRQ enable (`0xC<-1`), per-zone mask (`0x10C<-mask`, the mask a
non-empty subset of bit 5 and bit 7) and monitor enable (`0x2A0<-1`), in that
order; hence the low-threshold register `0x2B4` keeps its prior value and the
monitor is enabled with a non-zero mask when the handler returns, whether or
not the operating point is committed. -/
theorem bwmon_intr_thread_trace (m : Machine) :
    (bwmon_intr_thread m).2.writes =
      m.writes ++
        [(BWMON_THRESHOLD_HIGH,
            mult_frac 32 ((bwmon_intr_thread_locals m).up_mbps % 2 ^ 32) m.bwmon.sample_ms
              MSEC_PER_SEC % 2 ^ 32),
         (BWMON_THRESHOLD_MED,
            mult_frac 32 ((bwmon_intr_thread_locals m).down_mbps % 2 ^ 32) m.bwmon.sample_ms
              MSEC_PER_SEC % 2 ^ 32),
         (BWMON_IRQ_CLEAR, 0xa0), (BWMON_GLOBAL_IRQ_CLEAR, 1), (BWMON_CLEAR, 1),
         (BWMON_GLOBAL_IRQ_ENABLE, 1),
         (BWMON_IRQ_ENABLE, (bwmon_intr_thread_locals m).irq_enable),
         (BWMON_ENABLE, 1)] ∧
    ((bwmon_intr_thread_locals m).irq_enable = 1 <<< 5 ∨
      (bwmon_intr_thread_locals m).irq_enable = 1 <<< 7 ∨
      (bwmon_intr_thread_locals m).irq_enable = 1 <<< 5 ||| 1 <<< 7) ∧
    (bwmon_intr_thread_locals m).irq_enable ≠ 0 ∧
    (bwmon_intr_thread m).2.regs BWMON_THRESHOLD_LOW = m.regs BWMON_THRESHOLD_LOW ∧
    (bwmon_intr_thread m).2.regs BWMON_GLOBAL_IRQ_ENABLE = 1 ∧
    (bwmon_intr_thread m).2.regs BWMON_IRQ_ENABLE = (bwmon_intr_thread_locals m).irq_enable ∧
    (bwmon_intr_thread m).2.regs BWMON_ENABLE = 1 ∧
    (bwmon_intr_thread m).1 = irqreturn_t.IRQ_HANDLED ∧
    [BWMON_THRESHOLD_HIGH, BWMON_THRESHOLD_MED, BWMON_IRQ_CLEAR, BWMON_GLOBAL_IRQ_CLEAR,
      BWMON_CLEAR, BWMON_GLOBAL_IRQ_ENABLE, BWMON_IRQ_ENABLE, BWMON_ENABLE] =
      [0x2ac, 0x2b0, 0x108, 0x8, 0x2a4, 0xc, 0x10c, 0x2a0] := by
  have hmask := bwmon_intr_thread_locals_irq_enable m
  have hcases : (bwmon_intr_thread_locals m).irq_enable = 0x20 ∨
      (bwmon_intr_thread_locals m).irq_enable = 0x80 ∨
      (bwmon_intr_thread_locals m).irq_enable = 0xA0 := by
    rw [hmask]
    split
    · exact Or.inl rfl
    · split
      · exact Or.inr (Or.inl rfl)
      · exact Or.inr (Or.inr rfl)
  have hsmall : (bwmon_intr_thread_locals m).irq_enable % 2 ^ 32 =
      (bwmon_intr_thread_locals m).irq_enable := by
    rcases hcases with h | h | h <;> rw [h] <;> decide
  obtain ⟨hlow, hglobal, henable⟩ := bwmon_intr_thread_regs m
  refine ⟨?_, ?_, ?_, hlow, hglobal, ?_, henable, ?_, rfl⟩
  · rw [bwmon_intr_thread_writes, hsmall]
  · rcases hcases with h | h | h
    · exact Or.inl h
    · exact Or.inr (Or.inl h)
    · exact Or.inr (Or.inr h)
  · rcases hcases with h | h | h <;> rw [h] <;> decide
  · rw [bwmon_intr_thread_irq_enable_reg, hsmall]
  · unfold bwmon_intr_thread
    simp only []
    split <;> rfl

/-! ## Disable and enable (C17) -/

/-- C17, as stated, fails: `bwmon_disable` does not clear the monitor enable
register `0x2A0` first and the global enable `0xC` last; its writes are
`0xC<-0`, `0x10C<-0`, `0x2A0<-0`, the same register order as `bwmon_enable`. -/
theorem bwmon_disable_not_reversed :
    (bwmon_disable (idle ⟨4, 20, 0, 0, 0, 0⟩ (fun _ => 1) [])).writes =
      [(0xc, 0), (0x10c, 0), (0x2a0, 0)] ∧
    (bwmon_disable (idle ⟨4, 20, 0, 0, 0, 0⟩ (fun _ => 1) [])).writes ≠
      [(0x2a0, 0), (0x10c, 0), (0xc, 0)] := by
  decide

/-- C17 (amended): `bwmon_enable` writes the global interrupt enable (`0xC`),
then the per-zone interrupt mask (`0x10C`), then the monitor enable bit
(`0x2A0`); `bwmon_disable` clears the same three registers in the same order,
the global enable (`0xC`) first, then the per-zone mask (`0x10C`), then the
monitor enable register (`0x2A0`), and after it all three registers hold 0. -/
theorem bwmon_disable_enable_order (m : Machine) (irq_enable : Nat) :
    (bwmon_enable m irq_enable).writes =
      m.writes ++ [(BWMON_GLOBAL_IRQ_ENABLE, 1), (BWMON_IRQ_ENABLE, irq_enable % 2 ^ 32),
        (BWMON_ENABLE, 1)] ∧
    (bwmon_disable m).writes =
      m.writes ++ [(BWMON_GLOBAL_IRQ_ENABLE, 0), (BWMON_IRQ_ENABLE, 0), (BWMON_ENABLE, 0)] ∧
    (bwmon_disable m).regs BWMON_ENABLE = 0 ∧
    (bwmon_disable m).regs BWMON_IRQ_ENABLE = 0 ∧
    (bwmon_disable m).regs BWMON_GLOBAL_IRQ_ENABLE = 0 ∧
    [BWMON_GLOBAL_IRQ_ENABLE, BWMON_IRQ_ENABLE, BWMON_ENABLE] = [0xc, 0x10c, 0x2a0] := by
  refine ⟨?_, bwmon_disable_writes m, rfl, rfl, rfl, rfl⟩
  simp only [bwmon_enable, writel, List.append_assoc, List.singleton_append, List.cons_append,
    List.nil_append]
  rfl

/-! ## Range of the zone index (C18) -/

/-- The scan `fls_from` finds the position of the highest set bit: on a value
below `2 ^ bits` it answers `0` for `0`, and otherwise the `f > 0` with
`2 ^ (f - 1) ≤ x < 2 ^ f`. -/
theorem fls_from_spec (x : Nat) :
    ∀ bits, x < 2 ^ bits →
      (x = 0 → fls_from bits x = 0) ∧
      (x ≠ 0 → 0 < fls_from bits x ∧ 2 ^ (fls_from bits x - 1) ≤ x ∧ x < 2 ^ fls_from bits x) := by
  intro bits
  induction bits with
  | zero =>
    intro hx
    have h0 : x = 0 := by simpa using hx
    exact ⟨fun _ => rfl, fun hne => absurd h0 hne⟩
  | succ b ih =>
    intro hx
    unfold fls_from
    cases hbit : x.testBit b with
    | true =>
      have hge : 2 ^ b ≤ x := Nat.testBit_implies_ge hbit
      have hpos : 0 < 2 ^ b := Nat.two_pow_pos b
      simp only [if_true]
      refine ⟨fun h0 => ?_, fun _ => ⟨Nat.succ_pos b, ?_, hx⟩⟩
      · omega
      · simpa using hge
    | false =>
      have hlt : x < 2 ^ b := by
        by_contra hnot
        have hge : 2 ^ b ≤ x := Nat.le_of_not_lt hnot
        have hdiv : x / 2 ^ b = 1 := by
          apply Nat.div_eq_of_lt_le
          · simpa using hge
          · rw [Nat.pow_succ] at hx
            omega
        have : x.testBit b = true := by
          rw [Nat.testBit_to_div_mod, hdiv]
          decide
        rw [this] at hbit
        exact Bool.noConfusion hbit
      simp only [Bool.false_eq_true, if_false]
      exact ih hlt

/-- The zone index computed by `bwmon_intr` from a 32-bit status is in [0,3]
exactly for the status values from 16 to 255. -/
theorem bwmon_intr_zone_range (status : Nat) (hlt : status < 2 ^ 32) :
    (0 ≤ bwmon_intr_zone status ∧ bwmon_intr_zone status ≤ 3) ↔
      (16 ≤ status ∧ status < 256) := by
  have hy : status >>> 4 < 2 ^ 32 := by
    rw [Nat.shiftRight_eq_div_pow]
    omega
  have hspec := fls_from_spec (status >>> 4) 32 hy
  unfold bwmon_intr_zone get_bitmask_order
  rw [Nat.mod_eq_of_lt hy]
  have hshift : status >>> 4 = status / 16 := by
    rw [Nat.shiftRight_eq_div_pow]
  by_cases h0 : status >>> 4 = 0
  · rw [hspec.1 h0]
    rw [hshift] at h0
    omega
  · obtain ⟨hpos, hlo, hhi⟩ := hspec.2 h0
    have hne16 : 16 ≤ status := by
      rw [hshift] at h0
      omega
    constructor
    · rintro ⟨_, hle⟩
      have hf : fls_from 32 (status >>> 4) ≤ 4 := by omega
      have : status >>> 4 < 2 ^ 4 :=
        Nat.lt_of_lt_of_le hhi (Nat.pow_le_pow_right (by decide) hf)
      rw [hshift] at this
      omega
    · rintro ⟨_, hlt256⟩
      have hy16 : status >>> 4 < 2 ^ 4 := by
        rw [hshift]
        omega
      have hpow : 2 ^ (fls_from 32 (status >>> 4) - 1) < 2 ^ 4 := Nat.lt_of_le_of_lt hlo hy16
      have := (Nat.pow_lt_pow_iff_right (by decide : 1 < 2)).mp hpow
      omega

/-- C18, as stated, fails: a status of `1` (non-zero, no zone bit set) gives the
zone index `-1` and a read of offset `0x2DC`, below the zone-max registers; a
status of `0x100` gives the zone index `4` and a read of offset `0x2F0`, above
them. -/
theorem bwmon_intr_zone_out_of_range :
    (bwmon_intr_zone 1 = -1 ∧
      (bwmon_intr (idle ⟨4, 20, 0, 0, 0, 0⟩ (regs_with 1 (-1) 7) [])).2.reads =
        [0x100, 0x2dc]) ∧
    (bwmon_intr_zone 0x100 = 4 ∧
      (bwmon_intr (idle ⟨4, 20, 0, 0, 0, 0⟩ (regs_with 0x100 4 7) [])).2.reads =
        [0x100, 0x2f0]) := by
  decide

/-- C18 (amended): for every non-zero 32-bit value of the IRQ status register,
the zone index computed by `bwmon_intr` lies in [0,3] exactly when the status
has one of the bits 4..7 set and no bit above bit 7 (`16 <= status < 256`); for
those values the counter it reads is one of the four per-zone max registers
`0x2E0`, `0x2E4`, `0x2E8`, `0x2EC`. -/
theorem bwmon_intr_zone_in_range (m : Machine) (status : Nat)
    (hstatus : (readl m BWMON_IRQ_STATUS).1 = status) (hne : status ≠ 0) :
    ((0 ≤ bwmon_intr_zone status ∧ bwmon_intr_zone status ≤ 3) ↔
      (16 ≤ status ∧ status < 256)) ∧
    (bwmon_intr m).2.reads =
      m.reads ++ [BWMON_IRQ_STATUS, BWMON_ZONE_MAX (bwmon_intr_zone status)] ∧
    (16 ≤ status → status < 256 →
      BWMON_ZONE_MAX (bwmon_intr_zone status) ∈ ([0x2e0, 0x2e4, 0x2e8, 0x2ec] : List Int)) := by
  have hlt : status < 2 ^ 32 := by
    rw [← hstatus]
    exact Nat.mod_lt _ (by decide)
  have hrange := bwmon_intr_zone_range status hlt
  have hnz : (readl m BWMON_IRQ_STATUS).1 ≠ 0 := by rw [hstatus]; exact hne
  refine ⟨hrange, ?_, ?_⟩
  · rw [bwmon_intr_reads m hnz, hstatus]
  · intro h16 h256
    obtain ⟨hlo, hhi⟩ := hrange.mpr ⟨h16, h256⟩
    unfold BWMON_ZONE_MAX
    have hcases : bwmon_intr_zone status = 0 ∨ bwmon_intr_zone status = 1 ∨
        bwmon_intr_zone status = 2 ∨ bwmon_intr_zone status = 3 := by omega
    rcases hcases with h | h | h | h <;> rw [h] <;> decide

/-- An instance of C18: zones 3 and 1 pending together (status `0xA0`). -/
theorem bwmon_intr_zone_in_range_witness :
    ((0 ≤ bwmon_intr_zone 0xA0 ∧ bwmon_intr_zone 0xA0 ≤ 3) ↔
      (16 ≤ 0xA0 ∧ 0xA0 < 256)) ∧
    (bwmon_intr (idle ⟨4, 20, 0, 0, 0, 0⟩ (regs_with 0xA0 3 7) [])).2.reads =
      [] ++ [BWMON_IRQ_STATUS, BWMON_ZONE_MAX (bwmon_intr_zone 0xA0)] ∧
    (16 ≤ 0xA0 → 0xA0 < 256 →
      BWMON_ZONE_MAX (bwmon_intr_zone 0xA0) ∈ ([0x2e0, 0x2e4, 0x2e8, 0x2ec] : List Int)) :=
  bwmon_intr_zone_in_range (idle ⟨4, 20, 0, 0, 0, 0⟩ (regs_with 0xA0 3 7) []) 0xA0
    (by decide) (by decide)

/-! ## Monotonicity of the sampled bandwidth (C19) -/

/-- C19, as stated, fails: with the probe-time count shift of 20 and
`sample_ms = 4`, the raw counter value 4095 is stored as 1023750 mbps, while
the next value 4096 makes the 32-bit shift `4096 << 20` wrap to `0` and is
stored as 0 mbps. -/
theorem bwmon_intr_shift_wraps :
    (bwmon_probe sdm845_probe_env).2.bwmon.count_shift = 20 ∧
    (4095 ≤ 4096 ∧ 4096 < 2 ^ 32) ∧
    (bwmon_intr (idle ⟨4, 20, 0, 0, 0, 0⟩ (regs_with 0x80 3 4095) [])).2.bwmon.target_mbps =
      1023750 ∧
    (bwmon_intr (idle ⟨4, 20, 0, 0, 0, 0⟩ (regs_with 0x80 3 4096) [])).2.bwmon.target_mbps = 0 ∧
    ¬ ((bwmon_intr (idle ⟨4, 20, 0, 0, 0, 0⟩ (regs_with 0x80 3 4095) [])).2.bwmon.target_mbps ≤
      (bwmon_intr (idle ⟨4, 20, 0, 0, 0, 0⟩ (regs_with 0x80 3 4096) [])).2.bwmon.target_mbps) := by
  decide

/-- C19 (amended): with the probe-time count shift of 20 and any
`sample_ms > 0`, the bandwidth that `bwmon_intr` stores in `target_mbps` is
monotonically non-decreasing in the raw zone-max counter value over the raw
values below 4096, for which the 32-bit left shift by 20 does not wrap: for all
`r1 <= r2 < 4096`, `target_mbps(r1) <= target_mbps(r2)`, where
`target_mbps(r) = (r << 20) * 1000 / sample_ms / 2^20`. -/
theorem bwmon_intr_monotone (m1 m2 : Machine) (r1 r2 : Nat)
    (hsample : 0 < m1.bwmon.sample_ms)
    (hsame : m2.bwmon.sample_ms = m1.bwmon.sample_ms)
    (hshift1 : m1.bwmon.count_shift = 20) (hshift2 : m2.bwmon.count_shift = 20)
    (hstatus1 : (readl m1 BWMON_IRQ_STATUS).1 ≠ 0)
    (hstatus2 : (readl m2 BWMON_IRQ_STATUS).1 ≠ 0)
    (hraw1 : m1.regs (BWMON_ZONE_MAX (bwmon_intr_zone (readl m1 BWMON_IRQ_STATUS).1)) = r1)
    (hraw2 : m2.regs (BWMON_ZONE_MAX (bwmon_intr_zone (readl m2 BWMON_IRQ_STATUS).1)) = r2)
    (hle : r1 ≤ r2) (hlt : r2 < 4096) :
    (bwmon_intr m1).2.bwmon.target_mbps ≤ (bwmon_intr m2).2.bwmon.target_mbps ∧
    (bwmon_intr m1).2.bwmon.target_mbps = (r1 <<< 20) * 1000 / m1.bwmon.sample_ms / 2 ^ 20 ∧
    (bwmon_intr m2).2.bwmon.target_mbps = (r2 <<< 20) * 1000 / m1.bwmon.sample_ms / 2 ^ 20 ∧
    order_base_2 SZ_1M = 20 := by
  have hfit2 : r2 * 2 ^ 20 < 2 ^ 32 := by omega
  have hfit1 : r1 * 2 ^ 20 < 2 ^ 32 := by omega
  have ht1 : (bwmon_intr m1).2.bwmon.target_mbps =
      (r1 <<< 20) * 1000 / m1.bwmon.sample_ms / 2 ^ 20 := by
    rw [(bwmon_intr_target m1 hstatus1).2, hraw1, hshift1,
      Nat.mod_eq_of_lt (by omega : r1 < 2 ^ 32), Nat.shiftLeft_eq, Nat.mod_eq_of_lt hfit1]
    exact sample_exact (r1 * 2 ^ 20) m1.bwmon.sample_ms hsample hfit1
  have ht2 : (bwmon_intr m2).2.bwmon.target_mbps =
      (r2 <<< 20) * 1000 / m1.bwmon.sample_ms / 2 ^ 20 := by
    rw [(bwmon_intr_target m2 hstatus2).2, hraw2, hshift2, hsame,
      Nat.mod_eq_of_lt (by omega : r2 < 2 ^ 32), Nat.shiftLeft_eq, Nat.mod_eq_of_lt hfit2]
    exact sample_exact (r2 * 2 ^ 20) m1.bwmon.sample_ms hsample hfit2
  refine ⟨?_, ht1, ht2, by decide⟩
  rw [ht1, ht2, Nat.shiftLeft_eq, Nat.shiftLeft_eq]
  apply Nat.div_le_div_right
  apply Nat.div_le_div_right
  apply Nat.mul_le_mul_right
  exact Nat.mul_le_mul_right _ hle

/-- An instance of C19: raw counter values 100 and 2000 in a 4 ms window. -/
theorem bwmon_intr_monotone_witness :
    (bwmon_intr (idle ⟨4, 20, 0, 0, 0, 0⟩ (regs_with 0x80 3 100) [])).2.bwmon.target_mbps ≤
      (bwmon_intr (idle ⟨4, 20, 0, 0, 0, 0⟩ (regs_with 0x80 3 2000) [])).2.bwmon.target_mbps :=
  (bwmon_intr_monotone
    (idle ⟨4, 20, 0, 0, 0, 0⟩ (regs_with 0x80 3 100) [])
    (idle ⟨4, 20, 0, 0, 0, 0⟩ (regs_with 0x80 3 2000) []) 100 2000
    (by decide) rfl rfl rfl (by decide) (by decide) (by decide) (by decide)
    (by decide) (by decide)).1

end Bwmon

/-! # Warming device: runtime-PM balance (C20) -/

namespace PdWarming

/-- One call keeps the balance between `pm_runtime_get_sync` calls,
`pm_runtime_put` calls and the `runtime_resumed` flag. -/
theorem pd_wdev_set_cur_state_keeps_balance (w : World) (state : Nat) (genpd_ret rpm_ret : Int)
    (h : w.get_sync_calls = w.put_calls + (if w.pd_wdev.runtime_resumed then 1 else 0)) :
    (pd_wdev_set_cur_state w state genpd_ret rpm_ret).2.get_sync_calls =
      (pd_wdev_set_cur_state w state genpd_ret rpm_ret).2.put_calls +
        (if (pd_wdev_set_cur_state w state genpd_ret rpm_ret).2.pd_wdev.runtime_resumed
          then 1 else 0) := by
  unfold pd_wdev_set_cur_state
  simp only []
  split
  · exact h
  · split
    · next hcond =>
      simp only [Bool.and_eq_true, Bool.not_eq_true', decide_eq_true_eq] at hcond
      simp only [hcond.2, Bool.false_eq_true, if_false] at h
      simp [h]
    · split
      · next hcond =>
        simp only [Bool.and_eq_true, decide_eq_true_eq] at hcond
        simp only [hcond.2, if_true] at h
        simp [h]
      · exact h

/-- The balance holds after every sequence of calls that starts in balance. -/
theorem run_calls_keeps_balance (calls : List set_cur_state_call) :
    ∀ w : World,
      w.get_sync_calls = w.put_calls + (if w.pd_wdev.runtime_resumed then 1 else 0) →
      (run_calls w calls).get_sync_calls =
        (run_calls w calls).put_calls +
          (if (run_calls w calls).pd_wdev.runtime_resumed then 1 else 0) := by
  induction calls with
  | nil => intro w h; exact h
  | cons c rest ih =>
    intro w h
    exact ih _ (pd_wdev_set_cur_state_keeps_balance w c.state c.genpd_ret c.rpm_ret h)

/-- C20: for every sequence of `pd_wdev_set_cur_state` calls on a warming device
starting with `runtime_resumed = false` (and no runtime-PM reference held): at
every point of the sequence the number of `pm_runtime_get_sync` calls minus the
number of `pm_runtime_put` calls is 1 when `runtime_resumed` is true and 0 when
it is false; a next call whose `dev_pm_genpd_set_performance_state` fails
returns that error and changes neither `runtime_resumed` nor the two call
counts; and after a next call whose performance-state set succeeds,
`runtime_resumed` is true iff the requested state is non-zero. -/
theorem pd_wdev_set_cur_state_balanced (w : World) (calls : List set_cur_state_call)
    (c : set_cur_state_call)
    (hstart : w.pd_wdev.runtime_resumed = false)
    (hcount : w.get_sync_calls = w.put_calls) :
    ((run_calls w calls).pd_wdev.runtime_resumed = true →
      (run_calls w calls).get_sync_calls = (run_calls w calls).put_calls + 1) ∧
    ((run_calls w calls).pd_wdev.runtime_resumed = false →
      (run_calls w calls).get_sync_calls = (run_calls w calls).put_calls) ∧
    (c.genpd_ret ≠ 0 →
      (pd_wdev_set_cur_state (run_calls w calls) c.state c.genpd_ret c.rpm_ret).1 =
        c.genpd_ret ∧
      (pd_wdev_set_cur_state (run_calls w calls) c.state c.genpd_ret
          c.rpm_ret).2.pd_wdev.runtime_resumed = (run_calls w calls).pd_wdev.runtime_resumed ∧
      (pd_wdev_set_cur_state (run_calls w calls) c.state c.genpd_ret
          c.rpm_ret).2.get_sync_calls = (run_calls w calls).get_sync_calls ∧
      (pd_wdev_set_cur_state (run_calls w calls) c.state c.genpd_ret
          c.rpm_ret).2.put_calls = (run_calls w calls).put_calls) ∧
    (c.genpd_ret = 0 →
      ((pd_wdev_set_cur_state (run_calls w calls) c.state c.genpd_ret
          c.rpm_ret).2.pd_wdev.runtime_resumed = true ↔ c.state ≠ 0)) := by
  have hinit : w.get_sync_calls = w.put_calls + (if w.pd_wdev.runtime_resumed then 1 else 0) := by
    rw [hstart, hcount]
    rfl
  have hbal := run_calls_keeps_balance calls w hinit
  refine ⟨?_, ?_, ?_, ?_⟩
  · intro hres
    rw [hres] at hbal
    exact hbal
  · intro hres
    rw [hres] at hbal
    exact hbal
  · intro hfail
    unfold pd_wdev_set_cur_state
    simp only [ne_eq, hfail, not_false_eq_true, if_true, and_self]
  · intro hok
    unfold pd_wdev_set_cur_state
    simp only [ne_eq, hok, not_true_eq_false, if_false]
    cases hres : (run_calls w calls).pd_wdev.runtime_resumed <;>
      by_cases hstate : c.state = 0 <;> simp [hres, hstate]

/-- An instance of C20: a fresh device is warmed, a request fails, the
resume itself fails, the device is released twice and warmed again. -/
theorem pd_wdev_set_cur_state_balanced_witness :
    (run_calls (fresh 3)
        [⟨2, 0, 0⟩, ⟨3, -5, 0⟩, ⟨1, 0, -13⟩, ⟨0, 0, 0⟩, ⟨0, 0, 0⟩]).pd_wdev.runtime_resumed =
      false ∧
    (run_calls (fresh 3)
        [⟨2, 0, 0⟩, ⟨3, -5, 0⟩, ⟨1, 0, -13⟩, ⟨0, 0, 0⟩, ⟨0, 0, 0⟩]).get_sync_calls =
      (run_calls (fresh 3)
        [⟨2, 0, 0⟩, ⟨3, -5, 0⟩, ⟨1, 0, -13⟩, ⟨0, 0, 0⟩, ⟨0, 0, 0⟩]).put_calls ∧
    ((pd_wdev_set_cur_state
        (run_calls (fresh 3) [⟨2, 0, 0⟩, ⟨3, -5, 0⟩, ⟨1, 0, -13⟩, ⟨0, 0, 0⟩, ⟨0, 0, 0⟩])
        1 0 0).2.pd_wdev.runtime_resumed = true ↔ (1 : Nat) ≠ 0) :=
  ⟨by decide,
   (pd_wdev_set_cur_state_balanced (fresh 3)
      [⟨2, 0, 0⟩, ⟨3, -5, 0⟩, ⟨1, 0, -13⟩, ⟨0, 0, 0⟩, ⟨0, 0, 0⟩] ⟨1, 0, 0⟩
      rfl rfl).2.1 (by decide),
   (pd_wdev_set_cur_state_balanced (fresh 3)
      [⟨2, 0, 0⟩, ⟨3, -5, 0⟩, ⟨1, 0, -13⟩, ⟨0, 0, 0⟩, ⟨0, 0, 0⟩] ⟨1, 0, 0⟩
      rfl rfl).2.2.2 rfl⟩

end PdWarming
